import Mathlib

/-!
# GPS simulation data point (`gps_sim_data_point.hpp` / `gps_sim_data_point.cpp`)

A shallow embedding of `Nos3::GPSSimDataPoint`: the lazily parsed GPS fix of the
NovAtel OEM615 simulator, and theorems about its parser `do_parsing`.

Modelling conventions

* `std::string` is a list of characters; `size_t` arithmetic is taken modulo `2 ^ 64`.
* `double` values are modelled by the rational number they denote and arithmetic on
  them is exact; rounding is not modelled.
* A C++ exception is a value of `Exn`; a computation that may throw returns
  `Except Exn _`, or a pair of the state reached and the exception thrown when the
  state survives the throw.
* Code that lives outside the two source files (the C library's `strtod`, the base
  class helper `parse_double_vector`, `SimCoordinateTransformations`) is a field of
  the structure `Env`, so every theorem holds for any implementation of it.
* The logger is a list of events; only the events the theorems speak about are kept.
-/

deriving instance DecidableEq for Except

namespace Nos3

/-! ## Strings -/

/-- A `std::string`, as the list of its characters. -/
abbrev Str := List Char

/-- The exceptions of `<stdexcept>` thrown by the calls the parser makes; `what` is the
name of the throwing function. Both are derived from `std::exception`. -/
inductive Exn where
  | invalid_argument (what : String)
  | out_of_range (what : String)
  deriving DecidableEq, Repr

/-- The modulus of `size_t` arithmetic. -/
def SIZE_MOD : Nat := 2 ^ 64

/-- The value `std::string::npos`, that is `(size_t)-1`. -/
def npos : Nat := SIZE_MOD - 1

/-- Addition of two `size_t` values. -/
def size_add (a b : Nat) : Nat := (a + b) % SIZE_MOD

/-- Subtraction of two `size_t` values (both below `2 ^ 64`). -/
def size_sub (a b : Nat) : Nat := (a + SIZE_MOD - b % SIZE_MOD) % SIZE_MOD

/-- Three-way lexicographic comparison of two strings (`traits::compare` followed by the
comparison of the lengths): negative, zero or positive. -/
def compare3 : Str → Str → Int
  | [], [] => 0
  | [], _ :: _ => -1
  | _ :: _, [] => 1
  | a :: as, b :: bs =>
    if a.toNat < b.toNat then -1
    else if b.toNat < a.toNat then 1
    else compare3 as bs

/-- The call `self.compare(pos, len, s)`: compares the substring of `self` that starts at `pos`
and has at most `len` characters with `s`; throws `std::out_of_range` when `pos > size()`. -/
def compare (self : Str) (pos len : Nat) (s : Str) : Except Exn Int :=
  if pos > self.length then .error (.out_of_range "basic_string::compare")
  else .ok (compare3 ((self.drop pos).take len) s)

/-- The call `self.substr(pos, len)`: throws `std::out_of_range` when `pos > size()`. -/
def substr (self : Str) (pos len : Nat) : Except Exn Str :=
  if pos > self.length then .error (.out_of_range "basic_string::substr")
  else .ok ((self.drop pos).take len)

/-- The call `self.find_first_of(c)` for a one-character set: the index of the first `c`, or
`npos`. -/
def find_first_of (self : Str) (c : Char) : Nat :=
  if c ∈ self then self.indexOf c else npos

/-! ## Numeric conversions of the C++ library -/

/-- The function `isspace` in the "C" locale: space, `\t`, `\n`, `\v`, `\f`, `\r`. -/
def isspace (c : Char) : Bool := c.toNat == 32 || (9 ≤ c.toNat && c.toNat ≤ 13)

/-- The function `isdigit`. -/
def isdigit (c : Char) : Bool := 48 ≤ c.toNat && c.toNat ≤ 57

/-- The number written by a list of decimal digits, most significant first. -/
def digits_value (ds : List Char) : Nat :=
  ds.foldl (fun acc c => acc * 10 + (c.toNat - 48)) 0

/-- An optional sign: whether it is `-`, and the rest. -/
def take_sign : Str → Bool × Str
  | '-' :: r => (true, r)
  | '+' :: r => (false, r)
  | t => (false, t)

/-- The smallest `int`. -/
def INT_MIN : Int := -2147483648

/-- The largest `int`. -/
def INT_MAX : Int := 2147483647

/-- The function `std::stoi(s)` (base 10): skips leading white space, reads an optional sign
and the longest run of digits, ignores what follows; throws `std::invalid_argument` when there
is no digit and `std::out_of_range` when the value is not an `int`. -/
def stoi (s : Str) : Except Exn Int :=
  let t := take_sign (s.dropWhile isspace)
  let ds := t.2.takeWhile isdigit
  if ds = [] then .error (.invalid_argument "stoi")
  else
    let v : Int := if t.1 then -(digits_value ds : Int) else (digits_value ds : Int)
    if v < INT_MIN ∨ INT_MAX < v then .error (.out_of_range "stoi") else .ok v

/-- Conversion of an `int` to `int16_t`: reduction modulo `2 ^ 16` into `[-32768, 32767]`. -/
def to_int16 (v : Int) : Int := (v + 32768) % 65536 - 32768

/-- Truncation of a rational toward zero. -/
def trunc (x : ℚ) : Int := Int.tdiv x.num x.den

/-- The cast `(int32_t)x` of a `double`: truncation toward zero. The cast is undefined when the
truncated value is not an `int32_t`; the model returns what `cvttsd2si` returns on x86-64, the
value `-2 ^ 31`. -/
def to_int32 (x : ℚ) : Int :=
  if -2147483648 ≤ trunc x ∧ trunc x ≤ 2147483647 then trunc x else -2147483648

/-- The constant `M_PI` of `<cmath>`: the `double` nearest to π. -/
def M_PI : ℚ := 884279719003555 / 281474976710656

/-! ## The code outside the two source files -/

/-- The functions the parser calls that are defined neither in `gps_sim_data_point.hpp` nor in
`gps_sim_data_point.cpp`.

* `strtod` is the conversion `strtod` makes of its subject sequence, the text after the leading
  white space; an error is the exception `std::stod` throws for it.
* `parse_double_vector text dv` is `Sim42DataPoint::parse_double_vector(text, dv)`: `dv` is
  passed by reference, so the call returns the new contents of `dv` and the exception thrown,
  if any.
* `GpsTimeToJD` and `JDToAbsTime` are the two functions of `SimCoordinateTransformations`. -/
structure Env where
  strtod : Str → Except Exn ℚ
  parse_double_vector : Str → List ℚ → List ℚ × Option Exn
  GpsTimeToJD : Int → Int → ℚ → ℚ
  JDToAbsTime : ℚ → ℚ

/-- The function `std::stod(s)`: skips leading white space and converts the rest with
`strtod`. -/
def stod (E : Env) (s : Str) : Except Exn ℚ :=
  E.strtod (s.dropWhile isspace)

/-! ## The class `GPSSimDataPoint` -/

/-- The data members of `GPSSimDataPoint`; `_dp` is the list of lines `_dp.get_lines()`
returns. -/
structure GPSSimDataPoint where
  _dp : List Str
  _sc : Int
  _gps : Int
  _not_parsed : Bool
  _abs_time : ℚ
  _gps_rollover : Int
  _gps_week : Int
  _gps_sec_week : Int
  _gps_frac_sec : ℚ
  _ECEF : List ℚ
  _ECI : List ℚ
  _ECEF_vel : List ℚ
  _ECI_vel : List ℚ
  _gps_lat : ℚ
  _gps_lng : ℚ
  _gps_alt : ℚ
  deriving DecidableEq

/-- The decimal text `operator<<` writes for an integer. -/
def dec (n : Int) : Str := (toString n).toList

/-- The string `MatchString` of `do_parsing`: `SC[<_sc>].AC.GPS[<_gps>].` -/
def MatchString (sc gps : Int) : Str :=
  "SC[".toList ++ dec sc ++ "].AC.GPS[".toList ++ dec gps ++ "].".toList

/-- The vector `n` zeros that `resize(n)` makes of an empty `std::vector<double>`. -/
def zeros (n : Nat) : List ℚ := List.replicate n 0

/-- The default constructor `GPSSimDataPoint()`: there is nothing to parse, and the four vectors
are resized to three components. The members without an initialiser keep the contents `mem` of
the storage the object is built in; so does `_dp`, whose default constructor is not in the two
source files. -/
def GPSSimDataPoint.default (mem : GPSSimDataPoint) : GPSSimDataPoint :=
  { mem with
    _not_parsed := false,
    _ECEF := zeros 3, _ECEF_vel := zeros 3, _ECI := zeros 3, _ECI_vel := zeros 3 }

/-- The constructor from explicit data values; the members without an initialiser, and `_dp`,
keep the contents `mem` of the storage. -/
def GPSSimDataPoint.explicit (mem : GPSSimDataPoint) (abs_time : ℚ) (gps_week gps_sec_week : Int)
    (gps_frac_sec : ℚ) (ECEF ECEF_vel ECI ECI_vel : List ℚ) : GPSSimDataPoint :=
  { mem with
    _not_parsed := false, _abs_time := abs_time, _gps_week := gps_week,
    _gps_sec_week := gps_sec_week, _gps_frac_sec := gps_frac_sec,
    _ECEF := ECEF, _ECEF_vel := ECEF_vel, _ECI := ECI, _ECI_vel := ECI_vel }

/-- The constructor from a 42 data point, given by its lines: the parsing is left for later.
The members without an initialiser (the GPS time, `_abs_time`, latitude, longitude, altitude)
keep the contents `mem` of the storage. -/
def GPSSimDataPoint.from_dp (mem : GPSSimDataPoint) (spacecraft gps : Int) (dp : List Str) :
    GPSSimDataPoint :=
  { mem with
    _sc := spacecraft, _gps := gps, _dp := dp, _not_parsed := true,
    _ECEF := zeros 3, _ECEF_vel := zeros 3, _ECI := zeros 3, _ECI_vel := zeros 3 }

/-! ## The line scan of `do_parsing` -/

/-- The ten field tags, in the order of the `else if` chain. -/
inductive Tag where
  | Rollover | Week | Sec | PosN | VelN | PosW | VelW | Lng | Lat | Alt
  deriving DecidableEq, Repr

/-- The string literal a tag is compared with; it ends in a blank. -/
def Tag.text : Tag → Str
  | .Rollover => "Rollover ".toList
  | .Week => "Week ".toList
  | .Sec => "Sec ".toList
  | .PosN => "PosN ".toList
  | .VelN => "VelN ".toList
  | .PosW => "PosW ".toList
  | .VelW => "VelW ".toList
  | .Lng => "Lng ".toList
  | .Lat => "Lat ".toList
  | .Alt => "Alt ".toList

/-- The length argument of the tag's `compare` call. -/
def Tag.len : Tag → Nat
  | .Rollover => 9
  | .Week => 5
  | .Sec => 4
  | .PosN => 5
  | .VelN => 5
  | .PosW => 5
  | .VelW => 5
  | .Lng => 4
  | .Lat => 4
  | .Alt => 4

/-- The tags in the order they are tried. -/
def tags : List Tag :=
  [.Rollover, .Week, .Sec, .PosN, .VelN, .PosW, .VelW, .Lng, .Lat, .Alt]

/-- The `else if` chain over the tags `ts`: the first tag `t` for which
`line.compare(MSsize, t.len, t.text) == 0`. -/
def find_tag (line : Str) (MSsize : Nat) : List Tag → Except Exn (Option Tag)
  | [] => .ok none
  | t :: ts =>
    match compare line MSsize t.len t.text with
    | .error e => .error e
    | .ok c => if c = 0 then .ok (some t) else find_tag line MSsize ts

/-- The value text of a line: `found = line.find_first_of("=")` and then
`line.substr(found+1, line.size() - found - 1)`, in `size_t` arithmetic. -/
def value_text (line : Str) : Except Exn Str :=
  let found := find_first_of line '='
  substr line (size_add found 1) (size_sub (size_sub line.length found) 1)

/-- The branch of tag `t` on the value text `text`: the coercion and the assignment. When the
coercion throws, the assignment is not made. -/
def assign (E : Env) (t : Tag) (text : Str) (o : GPSSimDataPoint) :
    GPSSimDataPoint × Option Exn :=
  match t with
  | .Rollover =>
    match stoi text with
    | .error e => (o, some e)
    | .ok v => ({ o with _gps_rollover := to_int16 v }, none)
  | .Week =>
    match stoi text with
    | .error e => (o, some e)
    | .ok v => ({ o with _gps_week := to_int16 v }, none)
  | .Sec =>
    match stod E text with
    | .error e => (o, some e)
    | .ok seconds =>
      ({ o with _gps_sec_week := to_int32 seconds,
                _gps_frac_sec := seconds - (to_int32 seconds : ℚ) }, none)
  | .PosN =>
    let r := E.parse_double_vector text o._ECI
    ({ o with _ECI := r.1 }, r.2)
  | .VelN =>
    let r := E.parse_double_vector text o._ECI_vel
    ({ o with _ECI_vel := r.1 }, r.2)
  | .PosW =>
    let r := E.parse_double_vector text o._ECEF
    ({ o with _ECEF := r.1 }, r.2)
  | .VelW =>
    let r := E.parse_double_vector text o._ECEF_vel
    ({ o with _ECEF_vel := r.1 }, r.2)
  | .Lng =>
    match stod E text with
    | .error e => (o, some e)
    | .ok v => ({ o with _gps_lng := v * 180 / M_PI }, none)
  | .Lat =>
    match stod E text with
    | .error e => (o, some e)
    | .ok v => ({ o with _gps_lat := v * 180 / M_PI }, none)
  | .Alt =>
    match stod E text with
    | .error e => (o, some e)
    | .ok v => ({ o with _gps_alt := v }, none)

/-- The body of the `for` loop for one line: the object after the line, and the exception that
left the body, if any. -/
def loop_body (E : Env) (MS : Str) (line : Str) (o : GPSSimDataPoint) :
    GPSSimDataPoint × Option Exn :=
  match compare line 0 MS.length MS with
  | .error e => (o, some e)
  | .ok c =>
    if c ≠ 0 then (o, none)
    else
      match find_tag line MS.length tags with
      | .error e => (o, some e)
      | .ok none => (o, none)
      | .ok (some t) =>
        match value_text line with
        | .error e => (o, some e)
        | .ok text => assign E t text o

/-- The `for` loop over the lines, inside the `try` block: an exception leaves the loop, with
the object as it is at the throw. -/
def scan (E : Env) (MS : Str) : List Str → GPSSimDataPoint → GPSSimDataPoint × Option Exn
  | [], o => (o, none)
  | line :: rest, o =>
    match loop_body E MS line o with
    | (o1, none) => scan E MS rest o1
    | (o1, some e) => (o1, some e)

/-! ## The logger, `do_parsing` and the accessors -/

/-- What the model records of a run: `scan` when the loop over the lines is entered,
`error e` for the `sim_logger->error` call of the `catch` handler, `conversion` when
`GpsTimeToJD` and `JDToAbsTime` are called, `debug` for the `sim_logger->debug` call that ends
`do_parsing`. -/
inductive Event where
  | scan
  | error (e : Exn)
  | conversion
  | debug
  deriving DecidableEq, Repr

/-- An object together with the log. -/
structure State where
  obj : GPSSimDataPoint
  log : List Event
  deriving DecidableEq

/-- The `catch (const std::exception& e)` handler: every `Exn` is a `std::exception` and is
logged. -/
def handler : Option Exn → List Event
  | none => []
  | some e => [Event.error e]

/-- The element `v[i]` of a vector; `none` stands for a read past the end. -/
def at_index (v : List ℚ) (i : Nat) : Option ℚ := v.get? i

/-- The values `to_string` and `to_formatted_string` stream, in order; the text they are
formatted to is not modelled. -/
def streamed (o : GPSSimDataPoint) : List (Option ℚ) :=
  [some o._abs_time, some (o._gps_rollover : ℚ), some (o._gps_week : ℚ),
   some (o._gps_sec_week : ℚ), some o._gps_frac_sec,
   at_index o._ECEF 0, at_index o._ECEF 1, at_index o._ECEF 2,
   at_index o._ECEF_vel 0, at_index o._ECEF_vel 1, at_index o._ECEF_vel 2,
   at_index o._ECI 0, at_index o._ECI 1, at_index o._ECI 2,
   at_index o._ECI_vel 0, at_index o._ECI_vel 1, at_index o._ECI_vel 2,
   some o._gps_lat, some o._gps_lng, some o._gps_alt]

/-- The part of `do_parsing` before its closing `to_string()` call: the flag is cleared, the
lines are scanned inside the `try` block, and the absolute time is computed. -/
def parse_fields (E : Env) (o : GPSSimDataPoint) : GPSSimDataPoint × Option Exn :=
  let MS := MatchString o._sc o._gps
  let r := scan E MS o._dp { o with _not_parsed := false }
  let JD := E.GpsTimeToJD r.1._gps_rollover r.1._gps_week
    ((r.1._gps_sec_week : ℚ) + r.1._gps_frac_sec)
  ({ r.1 with _abs_time := E.JDToAbsTime JD }, r.2)

mutual

/-- The member function `do_parsing`. The functions `do_parsing`, `to_string` and
`parse_data_point` call one another; the first argument bounds the depth of the calls, and
`none` means that the bound was reached. -/
def do_parsing (E : Env) : Nat → State → Option State
  | 0, _ => none
  | fuel + 1, s =>
    let r := parse_fields E s.obj
    let s1 : State :=
      { obj := r.1, log := s.log ++ [Event.scan] ++ handler r.2 ++ [Event.conversion] }
    match to_string E fuel s1 with
    | none => none
    | some (_, s2) => some { s2 with log := s2.log ++ [Event.debug] }

/-- The member function `parse_data_point`: `if (_not_parsed) do_parsing();` -/
def parse_data_point (E : Env) : Nat → State → Option State
  | 0, _ => none
  | fuel + 1, s => if s.obj._not_parsed then do_parsing E fuel s else some s

/-- The member function `to_string`. -/
def to_string (E : Env) : Nat → State → Option (List (Option ℚ) × State)
  | 0, _ => none
  | fuel + 1, s =>
    match parse_data_point E fuel s with
    | none => none
    | some s1 => some (streamed s1.obj, s1)

end

/-- The member function `to_formatted_string`. -/
def to_formatted_string (E : Env) (fuel : Nat) (s : State) : Option (List (Option ℚ) × State) :=
  match parse_data_point E fuel s with
  | none => none
  | some s1 => some (streamed s1.obj, s1)

/-- The value a call returns. -/
inductive Value where
  | int (v : Int)
  | real (v : ℚ)
  | elem (v : Option ℚ)
  | text (values : List (Option ℚ))
  deriving DecidableEq

/-- The public member functions that read the object. -/
inductive Accessor where
  | get_gps_rollover | get_gps_week | get_gps_sec_week | get_gps_frac_sec
  | get_ECEF_x | get_ECEF_y | get_ECEF_z
  | get_ECEF_vx | get_ECEF_vy | get_ECEF_vz
  | get_abs_time
  | to_string | to_formatted_string
  deriving DecidableEq, Repr

/-- What an accessor returns once `parse_data_point()` has returned. -/
def Accessor.read : Accessor → GPSSimDataPoint → Value
  | .get_gps_rollover, o => .int o._gps_rollover
  | .get_gps_week, o => .int o._gps_week
  | .get_gps_sec_week, o => .int o._gps_sec_week
  | .get_gps_frac_sec, o => .real o._gps_frac_sec
  | .get_ECEF_x, o => .elem (at_index o._ECEF 0)
  | .get_ECEF_y, o => .elem (at_index o._ECEF 1)
  | .get_ECEF_z, o => .elem (at_index o._ECEF 2)
  | .get_ECEF_vx, o => .elem (at_index o._ECEF_vel 0)
  | .get_ECEF_vy, o => .elem (at_index o._ECEF_vel 1)
  | .get_ECEF_vz, o => .elem (at_index o._ECEF_vel 2)
  | .get_abs_time, o => .real o._abs_time
  | .to_string, o => .text (streamed o)
  | .to_formatted_string, o => .text (streamed o)

/-- A call of an accessor: `parse_data_point(); return ...;`. The two renderings go through
their own definitions. -/
def call (E : Env) (a : Accessor) (fuel : Nat) (s : State) : Option (Value × State) :=
  match a with
  | .to_string =>
    match to_string E fuel s with
    | none => none
    | some (t, s1) => some (.text t, s1)
  | .to_formatted_string =>
    match to_formatted_string E fuel s with
    | none => none
    | some (t, s1) => some (.text t, s1)
  | a =>
    match parse_data_point E fuel s with
    | none => none
    | some s1 => some (a.read s1.obj, s1)

/-- A sequence of calls on one instance, the results being dropped. -/
def calls (E : Env) (fuel : Nat) : List Accessor → State → Option State
  | [], s => some s
  | a :: as, s =>
    match call E a fuel s with
    | none => none
    | some (_, s1) => calls E fuel as s1

/-! ## The member a tag writes -/

/-- The value of the member, or pair of members, a tag's branch assigns to. -/
inductive FieldValue where
  | int (v : Int)
  | sec (whole : Int) (frac : ℚ)
  | real (v : ℚ)
  | vec (v : List ℚ)
  deriving DecidableEq

/-- The member a tag's branch assigns to: `Rollover` writes `_gps_rollover`, `Week` writes
`_gps_week`, `Sec` writes `_gps_sec_week` and `_gps_frac_sec`, `PosN` writes `_ECI`, `VelN`
writes `_ECI_vel`, `PosW` writes `_ECEF`, `VelW` writes `_ECEF_vel`, `Lng` writes `_gps_lng`,
`Lat` writes `_gps_lat`, `Alt` writes `_gps_alt`. -/
def Tag.field : Tag → GPSSimDataPoint → FieldValue
  | .Rollover, o => .int o._gps_rollover
  | .Week, o => .int o._gps_week
  | .Sec, o => .sec o._gps_sec_week o._gps_frac_sec
  | .PosN, o => .vec o._ECI
  | .VelN, o => .vec o._ECI_vel
  | .PosW, o => .vec o._ECEF
  | .VelW, o => .vec o._ECEF_vel
  | .Lng, o => .real o._gps_lng
  | .Lat, o => .real o._gps_lat
  | .Alt, o => .real o._gps_alt

/-- The tags whose value goes through `parse_double_vector`. -/
def Tag.is_vector : Tag → Bool
  | .PosN | .VelN | .PosW | .VelW => true
  | _ => false

/-! ## A reference environment, for worked examples -/

/-- The parts of a decimal floating-point literal: sign, digits of the mantissa read as one
number, count of the digits after the point, exponent. -/
structure Decimal where
  neg : Bool
  mantissa : Nat
  scale : Nat
  exponent : Int
  deriving DecidableEq, Repr

/-- The exponent part `e [sign] digits` at the head of a text; `0` when there is none. -/
def read_exponent : Str → Int
  | [] => 0
  | c :: r =>
    if c = 'e' ∨ c = 'E' then
      let t := take_sign r
      let ds := t.2.takeWhile isdigit
      if ds = [] then 0
      else if t.1 then -(digits_value ds : Int) else (digits_value ds : Int)
    else 0

/-- The longest decimal literal `[sign] digits [. digits] [e [sign] digits]` at the head of a
text; `none` when there is no digit. -/
def read_decimal (s : Str) : Option Decimal :=
  let t := take_sign s
  let ip := t.2.takeWhile isdigit
  let r1 := t.2.dropWhile isdigit
  let fp := match r1 with
    | '.' :: r => r.takeWhile isdigit
    | _ => []
  let r2 := match r1 with
    | '.' :: r => r.dropWhile isdigit
    | _ => r1
  if ip = [] ∧ fp = [] then none
  else some ⟨t.1, digits_value (ip ++ fp), fp.length, read_exponent r2⟩

/-- The number a decimal literal writes. -/
def Decimal.value (d : Decimal) : ℚ :=
  (if d.neg then -1 else 1) * (d.mantissa : ℚ) / 10 ^ d.scale * 10 ^ d.exponent

/-- A `strtod` for the decimal notation: the exact value of the literal at the head of the text.
The hexadecimal, infinity and NaN notations, the rounding to the nearest `double` and the range
error are not modelled. -/
def strtod_decimal (s : Str) : Except Exn ℚ :=
  match read_decimal s with
  | none => .error (.invalid_argument "stod")
  | some d => .ok d.value

/-- The values of a list of tokens, or the first exception. -/
def stod_all (strtod : Str → Except Exn ℚ) : List Str → Except Exn (List ℚ)
  | [] => .ok []
  | t :: ts =>
    match strtod (t.dropWhile isspace) with
    | .error e => .error e
    | .ok v =>
      match stod_all strtod ts with
      | .error e => .error e
      | .ok vs => .ok (v :: vs)

/-- Modelled from the spec: `Sim42DataPoint::parse_double_vector`, which is not in the two source
files. The text holds three comma-or-whitespace-separated floating-point numbers, in the order
x, y, z; a text that does not yield exactly three numbers is an error (the same exception path as
a failed scalar) and leaves the vector as it was. -/
def parse_double_vector_spec (strtod : Str → Except Exn ℚ) (text : Str) (dv : List ℚ) :
    List ℚ × Option Exn :=
  let toks := (text.splitOnP (fun c => isspace c || c == ',')).filter (fun t => !t.isEmpty)
  if toks.length = 3 then
    match stod_all strtod toks with
    | .error e => (dv, some e)
    | .ok vs => (vs, none)
  else (dv, some (.invalid_argument "parse_double_vector"))

/-- Modelled from the spec: `SimCoordinateTransformations::GpsTimeToJD`, which is not in the two
source files. The Julian Date of a GPS time: the GPS epoch is Julian Date 2444244.5, a rollover
is 1024 weeks, leap seconds are ignored. -/
def GpsTimeToJD_spec (rollover week : Int) (sec : ℚ) : ℚ :=
  4888489 / 2 + 7 * (1024 * (rollover : ℚ) + (week : ℚ)) + sec / 86400

/-- Modelled from the spec: `SimCoordinateTransformations::JDToAbsTime`, which is not in the two
source files. An affine map of the Julian Date into seconds since the simulation epoch; the
epoch is a configuration constant, taken here to be J2000 (Julian Date 2451545). -/
def JDToAbsTime_spec (jd : ℚ) : ℚ := (jd - 2451545) * 86400

/-- The environment of the worked examples. -/
def reference_env : Env where
  strtod := strtod_decimal
  parse_double_vector := parse_double_vector_spec strtod_decimal
  GpsTimeToJD := GpsTimeToJD_spec
  JDToAbsTime := JDToAbsTime_spec

/-- A storage whose members are all zero or empty. -/
def zero_mem : GPSSimDataPoint :=
  { _dp := [], _sc := 0, _gps := 0, _not_parsed := false, _abs_time := 0, _gps_rollover := 0,
    _gps_week := 0, _gps_sec_week := 0, _gps_frac_sec := 0, _ECEF := [], _ECI := [],
    _ECEF_vel := [], _ECI_vel := [], _gps_lat := 0, _gps_lng := 0, _gps_alt := 0 }

/-- The end-to-end source of the specification. -/
def end_to_end_source : List Str :=
  ["SC[0].AC.GPS[0].Rollover = 2".toList,
   "SC[0].AC.GPS[0].Week = 100".toList,
   "SC[0].AC.GPS[0].Sec = 50000.25".toList,
   "SC[0].AC.GPS[0].PosN = 1000.0, 2000.0, 3000.0".toList,
   "SC[0].AC.GPS[0].VelN = 1.0, 2.0, 3.0".toList,
   "SC[0].AC.GPS[0].PosW = 1100.0, 2100.0, 3100.0".toList,
   "SC[0].AC.GPS[0].VelW = 1.1, 2.1, 3.1".toList,
   "SC[0].AC.GPS[0].Lat = 0.5".toList,
   "SC[0].AC.GPS[0].Lng = 1.0".toList,
   "SC[0].AC.GPS[0].Alt = 500.0".toList]

/-! ## Further notions the statements use -/

/-- The four vectors have three components each. -/
def len3 (o : GPSSimDataPoint) : Prop :=
  o._ECEF.length = 3 ∧ o._ECEF_vel.length = 3 ∧ o._ECI.length = 3 ∧ o._ECI_vel.length = 3

instance (o : GPSSimDataPoint) : Decidable (len3 o) := by
  unfold len3
  infer_instance

/-- A storage whose GPS time members hold values left over from an earlier use. -/
def used_mem : GPSSimDataPoint :=
  { zero_mem with
    _gps_rollover := 7, _gps_week := -3, _gps_sec_week := 99, _gps_frac_sec := 1 / 2 }

/-- The unit roundoff of binary64 arithmetic, `2 ^ (-53)`: the relative error of one correctly
rounded operation is at most this. -/
def unit_roundoff : ℚ := 1 / 9007199254740992

/-! ## Basic facts -/

theorem assign_frame (E : Env) (t : Tag) (text : Str) (o : GPSSimDataPoint) :
    (assign E t text o).1._not_parsed = o._not_parsed ∧ (assign E t text o).1._dp = o._dp ∧
    (assign E t text o).1._sc = o._sc ∧ (assign E t text o).1._gps = o._gps ∧
    (assign E t text o).1._abs_time = o._abs_time := by
  cases t <;> simp only [assign] <;> (try split) <;> simp

theorem loop_body_frame (E : Env) (MS line : Str) (o : GPSSimDataPoint) :
    (loop_body E MS line o).1._not_parsed = o._not_parsed ∧
    (loop_body E MS line o).1._dp = o._dp ∧
    (loop_body E MS line o).1._sc = o._sc ∧ (loop_body E MS line o).1._gps = o._gps ∧
    (loop_body E MS line o).1._abs_time = o._abs_time := by
  unfold loop_body
  split
  · simp
  · split
    · simp
    · split
      · simp
      · simp
      · split
        · simp
        · exact assign_frame E _ _ o

theorem scan_frame (E : Env) (MS : Str) (lines : List Str) (o : GPSSimDataPoint) :
    (scan E MS lines o).1._not_parsed = o._not_parsed ∧ (scan E MS lines o).1._dp = o._dp ∧
    (scan E MS lines o).1._sc = o._sc ∧ (scan E MS lines o).1._gps = o._gps ∧
    (scan E MS lines o).1._abs_time = o._abs_time := by
  induction lines generalizing o with
  | nil => simp [scan]
  | cons l ls ih =>
    have h := loop_body_frame E MS l o
    rw [scan]
    split
    · rename_i o1 heq
      rw [heq] at h
      obtain ⟨a1, a2, a3, a4, a5⟩ := h
      obtain ⟨b1, b2, b3, b4, b5⟩ := ih o1
      exact ⟨b1.trans a1, b2.trans a2, b3.trans a3, b4.trans a4, b5.trans a5⟩
    · rename_i o1 e heq
      rw [heq] at h
      exact h

theorem parse_fields_not_parsed (E : Env) (o : GPSSimDataPoint) :
    (parse_fields E o).1._not_parsed = false := by
  simp [parse_fields, (scan_frame E _ _ _).1]

/-- With a call depth of three or more, `do_parsing` returns: the object is the one
`parse_fields` makes, and the log gains the scan, the caught exception if any, the conversion
and the debug line. -/
theorem do_parsing_eq (E : Env) (n : Nat) (s : State) :
    do_parsing E (n + 3) s = some
      { obj := (parse_fields E s.obj).1,
        log := s.log ++ [Event.scan] ++ handler (parse_fields E s.obj).2 ++
          [Event.conversion] ++ [Event.debug] } := by
  simp [do_parsing, to_string, parse_data_point, parse_fields_not_parsed]

theorem parse_data_point_eq (E : Env) (n : Nat) (s : State) :
    parse_data_point E (n + 4) s =
      some (if s.obj._not_parsed then
        { obj := (parse_fields E s.obj).1,
          log := s.log ++ [Event.scan] ++ handler (parse_fields E s.obj).2 ++
            [Event.conversion] ++ [Event.debug] } else s) := by
  rw [parse_data_point]
  split <;> simp [do_parsing_eq, *]

theorem parse_data_point_parsed (E : Env) (n : Nat) (s : State)
    (h : s.obj._not_parsed = false) : parse_data_point E (n + 1) s = some s := by
  simp [parse_data_point, h]

/-- The scan of a concatenation: the second part is scanned only when the first part threw
nothing. -/
theorem scan_append (E : Env) (MS : Str) (l1 l2 : List Str) (o : GPSSimDataPoint) :
    scan E MS (l1 ++ l2) o =
      match scan E MS l1 o with
      | (o1, none) => scan E MS l2 o1
      | (o1, some e) => (o1, some e) := by
  induction l1 generalizing o with
  | nil => simp [scan]
  | cons l ls ih =>
    simp only [List.cons_append, scan]
    split
    · exact ih _
    · rfl

/-! ## String calls stay in range -/

theorem compare3_eq_zero : ∀ (a b : Str), compare3 a b = 0 → a = b
  | [], [], _ => rfl
  | [], _ :: _, h => by simp [compare3] at h
  | _ :: _, [], h => by simp [compare3] at h
  | a :: as, b :: bs, h => by
    rw [compare3] at h
    split at h
    · simp at h
    · split at h
      · simp at h
      · have hab : a.toNat = b.toNat := by omega
        have hc : a = b := Char.ext (UInt32.ext (by simpa [Char.toNat, UInt32.toNat] using hab))
        rw [hc, compare3_eq_zero as bs h]

theorem compare3_self : ∀ (a : Str), compare3 a a = 0
  | [] => rfl
  | a :: as => by simp [compare3, compare3_self as]

theorem compare3_zero_iff (a b : Str) : compare3 a b = 0 ↔ a = b :=
  ⟨compare3_eq_zero a b, fun h => h ▸ compare3_self a⟩

/-- The prefix test of the loop is the prefix relation on lists. -/
theorem compare_prefix_iff (line MS : Str) :
    compare line 0 MS.length MS = .ok 0 ↔ MS <+: line := by
  simp only [compare, Nat.not_lt_zero, gt_iff_lt, if_false, List.drop_zero, Except.ok.injEq,
    compare3_zero_iff]
  constructor
  · intro h
    rw [← h]
    exact List.take_prefix _ _
  · rintro ⟨t, rfl⟩
    simp

theorem find_tag_ok (line : Str) (pos : Nat) (h : pos ≤ line.length) (ts : List Tag) :
    ∃ r, find_tag line pos ts = .ok r := by
  induction ts with
  | nil => exact ⟨none, rfl⟩
  | cons t ts ih =>
    simp only [find_tag, compare, gt_iff_lt, Nat.not_lt.mpr h, if_false]
    split
    · exact ⟨_, rfl⟩
    · exact ih

theorem find_first_of_le (line : Str) (c : Char) :
    size_add (find_first_of line c) 1 ≤ line.length := by
  unfold find_first_of size_add
  split
  · rename_i h
    have h1 : line.indexOf c < line.length := List.indexOf_lt_length.mpr h
    exact le_trans (Nat.mod_le _ _) h1
  · simp [npos, SIZE_MOD]

theorem value_text_ok (line : Str) : ∃ text, value_text line = .ok text := by
  simp only [value_text, substr, gt_iff_lt, Nat.not_lt.mpr (find_first_of_le line '='), if_false]
  exact ⟨_, rfl⟩

/-! ## Control flow of `do_parsing` -/

theorem call_eq (E : Env) (a : Accessor) (n : Nat) (s : State) :
    call E a (n + 5) s =
      some (a.read (if s.obj._not_parsed then (parse_fields E s.obj).1 else s.obj),
        if s.obj._not_parsed then
          { obj := (parse_fields E s.obj).1,
            log := s.log ++ [Event.scan] ++ handler (parse_fields E s.obj).2 ++
              [Event.conversion] ++ [Event.debug] } else s) := by
  cases a <;>
    simp only [call, to_string, to_formatted_string, parse_data_point_eq, Accessor.read] <;>
    split <;> rfl

theorem call_parsed (E : Env) (a : Accessor) (n : Nat) (s : State)
    (h : s.obj._not_parsed = false) : call E a (n + 5) s = some (a.read s.obj, s) := by
  simp [call_eq, h]

theorem calls_parsed (E : Env) (n : Nat) (as : List Accessor) (s : State)
    (h : s.obj._not_parsed = false) : calls E (n + 5) as s = some s := by
  induction as with
  | nil => rfl
  | cons a as ih => simp [calls, call_parsed E a n s h, ih]

theorem count_scan_handler (r : Option Exn) : (handler r).count Event.scan = 0 := by
  cases r <;> simp [handler]

theorem count_conversion_handler (r : Option Exn) : (handler r).count Event.conversion = 0 := by
  cases r <;> simp [handler]

/-- C1 (counterexample): the line `Week = abc` is under the prefix of receiver 0 and fails the
coercion, the later line `Rollover = 2` is under the same prefix with a well-formed value, and
yet the parse leaves `_gps_rollover` at the value it had before, here 0, not 2. -/
theorem bad_field_stops_later_lines :
    find_tag "SC[0].AC.GPS[0].Week = abc".toList 16 tags = .ok (some Tag.Week) ∧
    stoi " abc".toList = .error (Exn.invalid_argument "stoi") ∧
    find_tag "SC[0].AC.GPS[0].Rollover = 2".toList 16 tags = .ok (some Tag.Rollover) ∧
    stoi " 2".toList = .ok 2 ∧
    (do_parsing reference_env 3
      ⟨GPSSimDataPoint.from_dp zero_mem 0 0
        ["SC[0].AC.GPS[0].Week = abc".toList, "SC[0].AC.GPS[0].Rollover = 2".toList], []⟩).map
      (fun s => s.obj._gps_rollover) = some 0 := by
  decide

/-- C1 (amended): a line whose processing throws ends the line scan but not the parse. When the
lines before it throw nothing, `do_parsing` returns; the object is the one held at the throw
with `_abs_time` computed from its GPS time members, whatever the later lines are; the exception
is logged. -/
theorem bad_field_ends_scan (E : Env) (o o1 o2 : GPSSimDataPoint) (pre post : List Str)
    (bad : Str) (e : Exn) (log : List Event) (n : Nat)
    (hdp : o._dp = pre ++ bad :: post)
    (hpre : scan E (MatchString o._sc o._gps) pre { o with _not_parsed := false } = (o1, none))
    (hbad : loop_body E (MatchString o._sc o._gps) bad o1 = (o2, some e)) :
    do_parsing E (n + 3) ⟨o, log⟩ = some
      ⟨{ o2 with _abs_time := E.JDToAbsTime (E.GpsTimeToJD o2._gps_rollover o2._gps_week
          ((o2._gps_sec_week : ℚ) + o2._gps_frac_sec)) },
        log ++ [Event.scan, Event.error e, Event.conversion, Event.debug]⟩ := by
  have key : ∀ l, l = pre ++ bad :: post →
      scan E (MatchString o._sc o._gps) l { o with _not_parsed := false } = (o2, some e) := by
    intro l hl
    rw [hl, scan_append, hpre]
    simp [scan, hbad]
  have hs := key _ hdp
  simp [do_parsing_eq, parse_fields, hs, handler]

/-- C1 (witness): the two lines of the counterexample; the scan ends at `Week = abc`. -/
theorem bad_field_ends_scan_witness :
    do_parsing reference_env 3
      ⟨GPSSimDataPoint.from_dp zero_mem 0 0
        ["SC[0].AC.GPS[0].Week = abc".toList, "SC[0].AC.GPS[0].Rollover = 2".toList], []⟩ =
    some ⟨{ GPSSimDataPoint.from_dp zero_mem 0 0
        ["SC[0].AC.GPS[0].Week = abc".toList, "SC[0].AC.GPS[0].Rollover = 2".toList] with
        _not_parsed := false,
        _abs_time := reference_env.JDToAbsTime (reference_env.GpsTimeToJD 0 0 ((0 : Int) + 0)) },
      [Event.scan, Event.error (Exn.invalid_argument "stoi"), Event.conversion, Event.debug]⟩ :=
  bad_field_ends_scan reference_env
    (GPSSimDataPoint.from_dp zero_mem 0 0
      ["SC[0].AC.GPS[0].Week = abc".toList, "SC[0].AC.GPS[0].Rollover = 2".toList])
    { GPSSimDataPoint.from_dp zero_mem 0 0
      ["SC[0].AC.GPS[0].Week = abc".toList, "SC[0].AC.GPS[0].Rollover = 2".toList] with
      _not_parsed := false }
    { GPSSimDataPoint.from_dp zero_mem 0 0
      ["SC[0].AC.GPS[0].Week = abc".toList, "SC[0].AC.GPS[0].Rollover = 2".toList] with
      _not_parsed := false }
    [] ["SC[0].AC.GPS[0].Rollover = 2".toList] "SC[0].AC.GPS[0].Week = abc".toList
    (Exn.invalid_argument "stoi") [] 0 rfl rfl (by decide!)

/-- C2: parsing never fails outright. The prefix `compare` is in range for every line; when it
matches, every tag `compare` is in range; the `substr` of the value text is in range for every
line, with or without `=`; and `do_parsing` returns a parsed object, the exception that left
the scan, if any, being logged by the handler. -/
theorem parsing_never_fails (E : Env) (s : State) (n : Nat) :
    (∀ line MS : Str, ∃ c, compare line 0 MS.length MS = .ok c) ∧
    (∀ line MS : Str, compare line 0 MS.length MS ≠ .ok 0 ∨
      ∃ r, find_tag line MS.length tags = .ok r) ∧
    (∀ line : Str, ∃ text, value_text line = .ok text) ∧
    ∃ s1, do_parsing E (n + 3) s = some s1 ∧ s1.obj._not_parsed = false ∧
      s1.log = s.log ++ [Event.scan] ++ handler (parse_fields E s.obj).2 ++
        [Event.conversion, Event.debug] := by
  refine ⟨fun line MS => ?_, fun line MS => ?_, value_text_ok, ?_⟩
  · simp only [compare, gt_iff_lt, Nat.not_lt_zero, if_false]
    exact ⟨_, rfl⟩
  · by_cases h : compare line 0 MS.length MS = .ok 0
    · right
      obtain ⟨t, rfl⟩ := (compare_prefix_iff line MS).mp h
      exact find_tag_ok _ _ (by simp) tags
    · exact Or.inl h
  · exact ⟨_, do_parsing_eq E n s, parse_fields_not_parsed E s.obj, by simp⟩

/-- C5: after `do_parsing` the stored `_abs_time` is the time conversion of the final
`_gps_rollover`, `_gps_week` and `_gps_sec_week + _gps_frac_sec`, whatever the source holds,
and the conversion is called exactly once. -/
theorem abs_time_derived (E : Env) (s : State) (n : Nat) :
    ∃ s1 new, do_parsing E (n + 3) s = some s1 ∧
      s1.obj._abs_time = E.JDToAbsTime (E.GpsTimeToJD s1.obj._gps_rollover s1.obj._gps_week
        ((s1.obj._gps_sec_week : ℚ) + s1.obj._gps_frac_sec)) ∧
      s1.log = s.log ++ new ∧ new.count Event.conversion = 1 := by
  refine ⟨_, [Event.scan] ++ handler (parse_fields E s.obj).2 ++
    [Event.conversion] ++ [Event.debug], do_parsing_eq E n s, ?_, by simp, ?_⟩
  · simp [parse_fields]
  · simp [List.count_append, count_conversion_handler, List.count_cons]

/-- C6: an object built from a data point is unparsed; the first call of any accessor or
rendering returns and leaves the object `do_parsing` makes of it, which is parsed; and over any
sequence of calls the log gains at most one scan. -/
theorem lazy_memoized (E : Env) (mem : GPSSimDataPoint) (sc gps : Int) (dp : List Str)
    (log : List Event) :
    (GPSSimDataPoint.from_dp mem sc gps dp)._not_parsed = true ∧
    (∀ (a : Accessor) (n : Nat), ∃ v s1,
      call E a (n + 5) ⟨GPSSimDataPoint.from_dp mem sc gps dp, log⟩ = some (v, s1) ∧
      do_parsing E 3 ⟨GPSSimDataPoint.from_dp mem sc gps dp, log⟩ = some s1 ∧
      s1.obj._not_parsed = false) ∧
    (∀ (as : List Accessor) (n : Nat), ∃ s1 new,
      calls E (n + 5) as ⟨GPSSimDataPoint.from_dp mem sc gps dp, log⟩ = some s1 ∧
      s1.log = log ++ new ∧ new.count Event.scan ≤ 1) := by
  refine ⟨rfl, fun a n => ?_, fun as n => ?_⟩
  · refine ⟨_, _, call_eq E a n _, ?_, ?_⟩
    · rw [do_parsing_eq E 0]
      simp [GPSSimDataPoint.from_dp]
    · simp [GPSSimDataPoint.from_dp, parse_fields_not_parsed]
  · cases as with
    | nil => exact ⟨_, [], rfl, by simp, by simp⟩
    | cons a as =>
      refine ⟨⟨(parse_fields E (GPSSimDataPoint.from_dp mem sc gps dp)).1,
        log ++ [Event.scan] ++ handler (parse_fields E (GPSSimDataPoint.from_dp mem sc gps dp)).2
        ++ [Event.conversion] ++ [Event.debug]⟩,
        [Event.scan] ++ handler (parse_fields E (GPSSimDataPoint.from_dp mem sc gps dp)).2
        ++ [Event.conversion] ++ [Event.debug], ?_, ?_, ?_⟩
      · rw [calls, call_eq]
        simp only [GPSSimDataPoint.from_dp, if_true]
        exact calls_parsed E n as _ (parse_fields_not_parsed E _)
      · simp
      · simp [List.count_append, count_scan_handler, List.count_cons]

/-! ## The decimal text of the identifiers and the prefix -/

theorem dec_ofNat (m : Nat) : dec (Int.ofNat m) = Nat.toDigits 10 m := rfl

theorem dec_negSucc (m : Nat) : dec (Int.negSucc m) = '-' :: Nat.toDigits 10 (m + 1) := rfl

theorem toDigitsCore_digits (fuel : Nat) : ∀ (n : Nat) (ds : List Char), 0 < n → n < fuel →
    Nat.toDigitsCore 10 fuel n ds = ((Nat.digits 10 n).reverse.map Nat.digitChar) ++ ds := by
  induction fuel with
  | zero => intro n ds _ h; omega
  | succ f ih =>
    intro n ds hn hf
    rw [Nat.toDigitsCore, Nat.digits_def' (by norm_num) hn]
    by_cases h0 : n / 10 = 0
    · simp [h0]
    · simp only [h0, if_false]
      rw [ih (n / 10) _ (Nat.pos_of_ne_zero h0) (by omega)]
      simp

theorem toDigits_pos (n : Nat) (hn : 0 < n) :
    Nat.toDigits 10 n = (Nat.digits 10 n).reverse.map Nat.digitChar := by
  rw [Nat.toDigits, toDigitsCore_digits (n + 1) n [] hn (by omega)]
  simp

theorem digitChar_isdigit : ∀ d, d < 10 → isdigit (Nat.digitChar d) = true := by decide

theorem digitChar_inj : ∀ a, a < 10 → ∀ b, b < 10 → Nat.digitChar a = Nat.digitChar b → a = b := by
  decide

theorem toDigits_isdigit (n : Nat) : ∀ c ∈ Nat.toDigits 10 n, isdigit c = true := by
  rcases Nat.eq_zero_or_pos n with rfl | hn
  · decide
  · rw [toDigits_pos n hn]
    intro c hc
    simp only [List.mem_map, List.mem_reverse] at hc
    obtain ⟨d, hd, rfl⟩ := hc
    exact digitChar_isdigit d (Nat.digits_lt_base (by norm_num) hd)

theorem map_digitChar_inj : ∀ (xs ys : List Nat), (∀ d ∈ xs, d < 10) → (∀ d ∈ ys, d < 10) →
    xs.map Nat.digitChar = ys.map Nat.digitChar → xs = ys
  | [], [], _, _, _ => rfl
  | [], _ :: _, _, _, h => by simp at h
  | _ :: _, [], _, _, h => by simp at h
  | x :: xs, y :: ys, hx, hy, h => by
    simp only [List.map_cons, List.cons.injEq] at h
    rw [digitChar_inj x (hx x (by simp)) y (hy y (by simp)) h.1,
      map_digitChar_inj xs ys (fun d hd => hx d (by simp [hd])) (fun d hd => hy d (by simp [hd]))
        h.2]

theorem toDigits_inj (n m : Nat) (h : Nat.toDigits 10 n = Nat.toDigits 10 m) : n = m := by
  have key : ∀ a b : Nat, 0 < a → 0 < b → Nat.toDigits 10 a = Nat.toDigits 10 b → a = b := by
    intro a b ha hb hab
    rw [toDigits_pos a ha, toDigits_pos b hb] at hab
    have h1 := map_digitChar_inj _ _
      (fun d hd => Nat.digits_lt_base (by norm_num) (List.mem_reverse.mp hd))
      (fun d hd => Nat.digits_lt_base (by norm_num) (List.mem_reverse.mp hd)) hab
    have h2 : Nat.digits 10 a = Nat.digits 10 b := List.reverse_injective h1
    exact Nat.digits.injective 10 h2
  have zero : ∀ b : Nat, 0 < b → Nat.toDigits 10 0 ≠ Nat.toDigits 10 b := by
    intro b hb hab
    rw [toDigits_pos b hb] at hab
    have h0 : Nat.toDigits 10 0 = [Nat.digitChar 0] := by decide
    rw [h0] at hab
    have h1 : [0] = (Nat.digits 10 b).reverse := map_digitChar_inj [0] _ (by simp)
      (fun d hd => Nat.digits_lt_base (by norm_num) (List.mem_reverse.mp hd)) (by simpa using hab)
    have h2 : Nat.digits 10 b = [0] := by
      have := congrArg List.reverse h1
      simpa using this.symm
    have h3 := Nat.getLast_digit_ne_zero 10 (Nat.pos_iff_ne_zero.mp hb)
    simp [h2] at h3
  rcases Nat.eq_zero_or_pos n with rfl | hn <;> rcases Nat.eq_zero_or_pos m with rfl | hm
  · rfl
  · exact absurd h (zero m hm)
  · exact absurd h.symm (zero n hn)
  · exact key n m hn hm h

theorem toDigits_ne_nil (n : Nat) : Nat.toDigits 10 n ≠ [] := by
  rcases Nat.eq_zero_or_pos n with rfl | hn
  · decide
  · rw [toDigits_pos n hn]
    simp [Nat.digits_ne_nil_iff_ne_zero, Nat.pos_iff_ne_zero.mp hn]

/-- The decimal text determines the integer. -/
theorem dec_inj (a b : Int) (h : dec a = dec b) : a = b := by
  have minus : ∀ (n m : Nat), Nat.toDigits 10 n ≠ '-' :: Nat.toDigits 10 m := by
    intro n m hnm
    cases hd : Nat.toDigits 10 n with
    | nil => exact toDigits_ne_nil n hd
    | cons c cs =>
      have := toDigits_isdigit n c (by simp [hd])
      rw [hd] at hnm
      simp only [List.cons.injEq] at hnm
      rw [hnm.1] at this
      exact absurd this (by decide)
  cases a with
  | ofNat n =>
    cases b with
    | ofNat m => rw [dec_ofNat, dec_ofNat] at h; rw [toDigits_inj n m h]
    | negSucc m => rw [dec_ofNat, dec_negSucc] at h; exact absurd h (minus _ _)
  | negSucc n =>
    cases b with
    | ofNat m => rw [dec_ofNat, dec_negSucc] at h; exact absurd h.symm (minus _ _)
    | negSucc m =>
      rw [dec_negSucc, dec_negSucc] at h
      simp only [List.cons.injEq, true_and] at h
      have := toDigits_inj _ _ h
      simp only [Nat.add_right_cancel_iff] at this
      rw [this]

/-- The characters of a decimal text are digits or the minus sign. -/
theorem dec_chars (a : Int) : ∀ c ∈ dec a, isdigit c = true ∨ c = '-' := by
  cases a with
  | ofNat n => intro c hc; exact Or.inl (toDigits_isdigit n c hc)
  | negSucc n =>
    intro c hc
    rw [dec_negSucc] at hc
    rcases List.mem_cons.mp hc with rfl | h
    · exact Or.inr rfl
    · exact Or.inl (toDigits_isdigit _ c h)

theorem isdigit_ne (c d : Char) (hd : isdigit d = false) (hc : isdigit c = true) : c ≠ d := by
  rintro rfl
  rw [hc] at hd
  exact Bool.noConfusion hd

theorem dec_not_mem (a : Int) (d : Char) (hd : isdigit d = false) (hm : d ≠ '-') :
    d ∉ dec a := by
  intro h
  rcases dec_chars a d h with h1 | h1
  · rw [h1] at hd; exact Bool.noConfusion hd
  · exact hm h1

theorem takeWhile_stop (p : Char → Bool) (xs ys : Str) (y : Char)
    (hx : ∀ c ∈ xs, p c = true) (hy : p y = false) :
    (xs ++ y :: ys).takeWhile p = xs ∧ (xs ++ y :: ys).dropWhile p = y :: ys := by
  induction xs with
  | nil => simp [List.takeWhile, List.dropWhile, hy]
  | cons x xs ih =>
    have hxx : p x = true := hx x (by simp)
    have := ih (fun c hc => hx c (by simp [hc]))
    simp [List.takeWhile, List.dropWhile, hxx, this.1, this.2]

/-- The two identifiers can be read back from any line that starts with the prefix. -/
theorem prefix_ids (sc gps : Int) (line : Str) (h : MatchString sc gps <+: line) :
    (line.drop 3).takeWhile (fun c => c != ']') = dec sc ∧
    ((((line.drop 3).dropWhile (fun c => c != ']')).drop 9).takeWhile (fun c => c != ']'))
      = dec gps := by
  obtain ⟨t, rfl⟩ := h
  have hp : ∀ a : Int, ∀ c ∈ dec a, (fun c => c != ']') c = true := by
    intro a c hc
    have : c ≠ ']' := fun hh => dec_not_mem a ']' (by decide) (by decide) (hh ▸ hc)
    simpa using this
  have e1 : (MatchString sc gps ++ t).drop 3 =
      dec sc ++ ']' :: ('.' :: 'A' :: 'C' :: '.' :: 'G' :: 'P' :: 'S' :: '[' ::
        (dec gps ++ ']' :: ('.' :: t))) := by
    simp [MatchString]
  rw [e1]
  obtain ⟨a1, a2⟩ := takeWhile_stop (fun c => c != ']') (dec sc)
    ('.' :: 'A' :: 'C' :: '.' :: 'G' :: 'P' :: 'S' :: '[' :: (dec gps ++ ']' :: ('.' :: t))) ']'
    (hp sc) (by decide)
  rw [a1, a2]
  refine ⟨rfl, ?_⟩
  simp only [List.drop_succ_cons, List.drop_zero]
  exact (takeWhile_stop (fun c => c != ']') (dec gps) ('.' :: t) ']' (hp gps) (by decide)).1

/-- No line starts with the prefixes of two different identifier pairs. -/
theorem prefix_disjoint (sc gps sc1 gps1 : Int) (line : Str)
    (h : MatchString sc gps <+: line) (h1 : MatchString sc1 gps1 <+: line) :
    sc = sc1 ∧ gps = gps1 := by
  obtain ⟨a1, a2⟩ := prefix_ids sc gps line h
  obtain ⟨b1, b2⟩ := prefix_ids sc1 gps1 line h1
  exact ⟨dec_inj _ _ (a1.symm.trans b1), dec_inj _ _ (a2.symm.trans b2)⟩

/-- A line that does not start with the prefix leaves the object as it is. -/
theorem loop_body_skip (E : Env) (MS line : Str) (o : GPSSimDataPoint) (h : ¬ MS <+: line) :
    loop_body E MS line o = (o, none) := by
  have hc : compare3 (List.take MS.length line) MS ≠ 0 := by
    intro h0
    apply h
    rw [← compare_prefix_iff]
    simp [compare, h0]
  simp [loop_body, compare, hc]

theorem scan_filter (E : Env) (MS : Str) (keep : Str → Bool) (lines : List Str)
    (o : GPSSimDataPoint) (h : ∀ l ∈ lines, keep l = false → ¬ MS <+: l) :
    scan E MS (lines.filter keep) o = scan E MS lines o := by
  induction lines generalizing o with
  | nil => rfl
  | cons l ls ih =>
    have ih1 := fun o => ih o (fun l1 hl1 => h l1 (by simp [hl1]))
    cases hk : keep l
    · rw [List.filter_cons_of_neg (by simp [hk]), scan, loop_body_skip E MS l o (h l (by simp) hk)]
      exact ih1 o
    · rw [List.filter_cons_of_pos (by simp [hk]), scan, scan]
      split
      · exact ih1 _
      · rfl

theorem assign_set_dp (E : Env) (t : Tag) (text : Str) (o : GPSSimDataPoint) (d : List Str) :
    assign E t text { o with _dp := d } =
      ({ (assign E t text o).1 with _dp := d }, (assign E t text o).2) := by
  cases t <;> simp only [assign] <;> (try split) <;> rfl

theorem loop_body_set_dp (E : Env) (MS line : Str) (o : GPSSimDataPoint) (d : List Str) :
    loop_body E MS line { o with _dp := d } =
      ({ (loop_body E MS line o).1 with _dp := d }, (loop_body E MS line o).2) := by
  unfold loop_body
  split
  · rfl
  · split
    · rfl
    · split
      · rfl
      · rfl
      · split
        · rfl
        · exact assign_set_dp E _ _ o d

theorem scan_set_dp (E : Env) (MS : Str) (lines : List Str) (o : GPSSimDataPoint)
    (d : List Str) :
    scan E MS lines { o with _dp := d } =
      ({ (scan E MS lines o).1 with _dp := d }, (scan E MS lines o).2) := by
  induction lines generalizing o with
  | nil => rfl
  | cons l ls ih =>
    rw [scan, scan, loop_body_set_dp]
    cases h : loop_body E MS l o with
    | mk o1 r =>
      cases r with
      | none => exact ih o1
      | some e => rfl

/-- C3: prefix isolation. No line starts with the prefixes of two different identifier pairs;
and parsing an object, or the same object with every line that starts with the other pair's
prefix removed from its source, gives the same members, flag and log: the two results differ in
the stored source only. -/
theorem prefix_isolation (E : Env) (o : GPSSimDataPoint) (sc1 gps1 : Int)
    (hAB : (o._sc, o._gps) ≠ (sc1, gps1)) (log : List Event) (n : Nat) :
    (∀ line : Str, ¬ (MatchString o._sc o._gps <+: line ∧ MatchString sc1 gps1 <+: line)) ∧
    ∃ s1 s2, do_parsing E (n + 3) ⟨o, log⟩ = some s1 ∧
      do_parsing E (n + 3)
        ⟨{ o with _dp := o._dp.filter (fun l => decide (¬ MatchString sc1 gps1 <+: l)) }, log⟩
        = some s2 ∧
      s2 = { s1 with obj := { s1.obj with
        _dp := o._dp.filter (fun l => decide (¬ MatchString sc1 gps1 <+: l)) } } := by
  have hdis : ∀ line : Str,
      ¬ (MatchString o._sc o._gps <+: line ∧ MatchString sc1 gps1 <+: line) := by
    rintro line ⟨h1, h2⟩
    obtain ⟨e1, e2⟩ := prefix_disjoint _ _ _ _ line h1 h2
    exact hAB (by rw [e1, e2])
  refine ⟨hdis, _, _, do_parsing_eq E n _, do_parsing_eq E n _, ?_⟩
  have hf := fun o1 => scan_filter E (MatchString o._sc o._gps)
    (fun l => decide (¬ MatchString sc1 gps1 <+: l)) o._dp o1
    (fun l _ hk => by
      have h2 : MatchString sc1 gps1 <+: l := by simpa using hk
      exact fun h1 => hdis l ⟨h1, h2⟩)
  have hd := scan_set_dp E (MatchString o._sc o._gps) o._dp { o with _not_parsed := false }
    (o._dp.filter (fun l => decide (¬ MatchString sc1 gps1 <+: l)))
  simp only [parse_fields, hf]
  rw [show ({ o with _dp := o._dp.filter (fun l => decide (¬ MatchString sc1 gps1 <+: l)),
                     _not_parsed := false } : GPSSimDataPoint)
      = { ({ o with _not_parsed := false } : GPSSimDataPoint) with
          _dp := o._dp.filter (fun l => decide (¬ MatchString sc1 gps1 <+: l)) } from rfl, hd]

/-- C3 (witness): receiver 1 and receiver 10 of spacecraft 0. -/
theorem prefix_isolation_witness :
    ((1 : Int), (1 : Int)) ≠ (1, 10) ∧
    (∀ line : Str, ¬ (MatchString 1 1 <+: line ∧ MatchString 1 10 <+: line)) ∧
    ∃ s1 s2,
      do_parsing reference_env 3
        ⟨GPSSimDataPoint.from_dp zero_mem 1 1
          ["SC[1].AC.GPS[1].Week = 5".toList, "SC[1].AC.GPS[10].Week = 7".toList], []⟩ = some s1 ∧
      do_parsing reference_env 3
        ⟨{ GPSSimDataPoint.from_dp zero_mem 1 1
            ["SC[1].AC.GPS[1].Week = 5".toList, "SC[1].AC.GPS[10].Week = 7".toList] with
          _dp := ["SC[1].AC.GPS[1].Week = 5".toList, "SC[1].AC.GPS[10].Week = 7".toList].filter
            (fun l => decide (¬ MatchString 1 10 <+: l)) }, []⟩ = some s2 ∧
      s2 = { s1 with obj := { s1.obj with
        _dp := ["SC[1].AC.GPS[1].Week = 5".toList, "SC[1].AC.GPS[10].Week = 7".toList].filter
          (fun l => decide (¬ MatchString 1 10 <+: l)) } } :=
  ⟨by decide, prefix_isolation reference_env
    (GPSSimDataPoint.from_dp zero_mem 1 1
      ["SC[1].AC.GPS[1].Week = 5".toList, "SC[1].AC.GPS[10].Week = 7".toList])
    1 10 (by decide) [] 0⟩

/-! ## The last line of a tag decides its member -/

theorem assign_other (E : Env) (t t1 : Tag) (text : Str) (o : GPSSimDataPoint) (h : t1 ≠ t) :
    t.field (assign E t1 text o).1 = t.field o := by
  cases t <;> cases t1 <;> first
    | exact absurd rfl h
    | (simp only [assign]; split <;> rfl)
    | rfl

theorem loop_body_other (E : Env) (MS line : Str) (o : GPSSimDataPoint) (t : Tag)
    (h : MS <+: line → find_tag line MS.length tags ≠ .ok (some t)) :
    t.field (loop_body E MS line o).1 = t.field o := by
  by_cases hp : MS <+: line
  · have hc := (compare_prefix_iff line MS).mpr hp
    have ht := h hp
    simp only [loop_body, hc]
    simp only [ne_eq, not_true_eq_false, if_false]
    split
    · rfl
    · rfl
    · rename_i t1 heq
      split
      · rfl
      · exact assign_other E t t1 _ o (fun h1 => ht (h1 ▸ heq))
  · rw [loop_body_skip E MS line o hp]

theorem scan_other (E : Env) (MS : Str) (t : Tag) (lines : List Str) (o : GPSSimDataPoint)
    (h : ∀ l ∈ lines, MS <+: l → find_tag l MS.length tags ≠ .ok (some t)) :
    t.field (scan E MS lines o).1 = t.field o := by
  induction lines generalizing o with
  | nil => rfl
  | cons l ls ih =>
    have h1 := loop_body_other E MS l o t (h l (by simp))
    rw [scan]
    split
    · rename_i o1 heq
      rw [heq] at h1
      rw [ih o1 (fun l1 hl1 => h l1 (by simp [hl1]))]
      exact h1
    · rename_i o1 e heq
      rw [heq] at h1
      exact h1

theorem field_set_abs_time (t : Tag) (o : GPSSimDataPoint) (a : ℚ) :
    t.field { o with _abs_time := a } = t.field o := by
  cases t <;> rfl

theorem loop_body_tag (E : Env) (MS line : Str) (o : GPSSimDataPoint) (t : Tag) (text : Str)
    (hp : MS <+: line) (ht : find_tag line MS.length tags = .ok (some t))
    (hv : value_text line = .ok text) :
    loop_body E MS line o = assign E t text o := by
  simp [loop_body, (compare_prefix_iff line MS).mpr hp, ht, hv]

/-- When no exception leaves the scan, the member of tag `t` is the one the last line of tag
`t` assigns. -/
theorem last_line_field (E : Env) (o : GPSSimDataPoint) (pre post : List Str) (l : Str)
    (t : Tag) (text : Str)
    (hdp : o._dp = pre ++ l :: post)
    (hok : (parse_fields E o).2 = none)
    (hl : MatchString o._sc o._gps <+: l)
    (ht : find_tag l (MatchString o._sc o._gps).length tags = .ok (some t))
    (hv : value_text l = .ok text)
    (hlast : ∀ l1 ∈ post, MatchString o._sc o._gps <+: l1 →
      find_tag l1 (MatchString o._sc o._gps).length tags ≠ .ok (some t)) :
    (assign E t text
      (scan E (MatchString o._sc o._gps) pre { o with _not_parsed := false }).1).2 = none ∧
    t.field (parse_fields E o).1 = t.field (assign E t text
      (scan E (MatchString o._sc o._gps) pre { o with _not_parsed := false }).1).1 := by
  have key : ∀ d, d = pre ++ l :: post →
      (scan E (MatchString o._sc o._gps) d { o with _not_parsed := false }).2 = none →
      (assign E t text
        (scan E (MatchString o._sc o._gps) pre { o with _not_parsed := false }).1).2 = none ∧
      t.field (scan E (MatchString o._sc o._gps) d { o with _not_parsed := false }).1 =
        t.field (assign E t text
          (scan E (MatchString o._sc o._gps) pre { o with _not_parsed := false }).1).1 := by
    intro d hd
    rw [hd, scan_append]
    cases h1 : scan E (MatchString o._sc o._gps) pre { o with _not_parsed := false } with
    | mk o1 r1 =>
      cases r1 with
      | some e => simp
      | none =>
        simp only [scan, loop_body_tag E _ l o1 t text hl ht hv]
        cases h2 : assign E t text o1 with
        | mk o2 r2 =>
          cases r2 with
          | some e => simp
          | none =>
            intro _
            exact ⟨rfl, scan_other E _ t post o2 hlast⟩
  have := key _ hdp (by simpa [parse_fields] using hok)
  refine ⟨this.1, ?_⟩
  rw [← this.2]
  simp only [parse_fields]
  exact field_set_abs_time t _ _

theorem assign_scalar (E : Env) (t : Tag) (text : Str) (o o1 : GPSSimDataPoint)
    (hs : t.is_vector = false) (hok : (assign E t text o).2 = none) :
    t.field (assign E t text o1).1 = t.field (assign E t text o).1 := by
  cases t <;> first
    | exact absurd hs (by decide)
    | (simp only [assign] at hok ⊢
       split at hok
       · simp at hok
       · rename_i v hv
         simp [hv, Tag.field])

/-- C4: last write wins. When no exception leaves the scan and `l` is the last line under the
prefix with tag `t`, then after `do_parsing` the member of `t` holds what the branch of `t`
assigns for the value text of `l`; for the six scalar tags that value depends on the text alone,
not on the object the branch runs on. -/
theorem last_write_wins (E : Env) (o : GPSSimDataPoint) (pre post : List Str) (l : Str)
    (t : Tag) (log : List Event) (n : Nat)
    (hdp : o._dp = pre ++ l :: post)
    (hok : (parse_fields E o).2 = none)
    (hl : MatchString o._sc o._gps <+: l)
    (ht : find_tag l (MatchString o._sc o._gps).length tags = .ok (some t))
    (hlast : ∀ l1 ∈ post, MatchString o._sc o._gps <+: l1 →
      find_tag l1 (MatchString o._sc o._gps).length tags ≠ .ok (some t)) :
    ∃ text s1, value_text l = .ok text ∧ do_parsing E (n + 3) ⟨o, log⟩ = some s1 ∧
      t.field s1.obj = t.field (assign E t text
        (scan E (MatchString o._sc o._gps) pre { o with _not_parsed := false }).1).1 ∧
      (t.is_vector = false → ∀ o1, t.field s1.obj = t.field (assign E t text o1).1) := by
  obtain ⟨text, hv⟩ := value_text_ok l
  obtain ⟨h1, h2⟩ := last_line_field E o pre post l t text hdp hok hl ht hv hlast
  exact ⟨text, _, hv, do_parsing_eq E n _, h2,
    fun hs o1 => h2.trans (assign_scalar E t text _ o1 hs h1).symm⟩

/-- C4 (witness): two `Week` lines with the values 100 and 200; `get_gps_week()` returns 200. -/
theorem last_write_wins_witness :
    ∃ s1, do_parsing reference_env 3
        ⟨GPSSimDataPoint.from_dp zero_mem 0 0
          ["SC[0].AC.GPS[0].Week = 100".toList, "SC[0].AC.GPS[0].Week = 200".toList], []⟩
        = some s1 ∧
      Tag.Week.field s1.obj = FieldValue.int 200 ∧
      call reference_env Accessor.get_gps_week 5 s1 = some (Value.int 200, s1) := by
  obtain ⟨text, s1, hv, hs, hf, _⟩ := last_write_wins reference_env
    (GPSSimDataPoint.from_dp zero_mem 0 0
      ["SC[0].AC.GPS[0].Week = 100".toList, "SC[0].AC.GPS[0].Week = 200".toList])
    ["SC[0].AC.GPS[0].Week = 100".toList] [] "SC[0].AC.GPS[0].Week = 200".toList
    Tag.Week [] 0 rfl (by decide) (by decide) (by decide) (by simp)
  have ht : text = " 200".toList := by
    have h2 : value_text "SC[0].AC.GPS[0].Week = 200".toList = .ok " 200".toList := by decide
    rw [h2] at hv
    exact (Except.ok.inj hv).symm
  subst ht
  have hw : Tag.Week.field s1.obj = FieldValue.int 200 := by
    rw [hf]
    decide
  refine ⟨s1, hs, hw, ?_⟩
  have hp : s1.obj._not_parsed = false := by
    rw [do_parsing_eq reference_env 0] at hs
    rw [← Option.some.inj hs]
    exact parse_fields_not_parsed _ _
  rw [call_parsed reference_env _ 0 s1 hp]
  simp only [Tag.field, FieldValue.int.injEq] at hw
  simp [Accessor.read, hw]

/-! ## The split of the seconds of the week -/

theorem trunc_eq_floor (s : ℚ) (h0 : 0 ≤ s) : trunc s = ⌊s⌋ := by
  rw [trunc, Rat.floor_def, Int.tdiv_eq_ediv (Rat.num_nonneg.mpr h0) (by positivity)]

theorem to_int32_eq_floor (s : ℚ) (h0 : 0 ≤ s) (h1 : s < 2147483648) : to_int32 s = ⌊s⌋ := by
  have hf0 : (0 : Int) ≤ ⌊s⌋ := Int.floor_nonneg.mpr h0
  have hf1 : ⌊s⌋ < (2147483648 : Int) := Int.floor_lt.mpr (by exact_mod_cast h1)
  rw [to_int32, trunc_eq_floor s h0, if_pos ⟨by omega, by omega⟩]

/-- C8: the seconds split. When no exception leaves the scan and the last `Sec` line under the
prefix has a value read as `s` with `0 ≤ s < 2 ^ 31`, then after `do_parsing` the member
`_gps_sec_week` is the truncation of `s` toward zero (its floor, `s` being non-negative),
`_gps_frac_sec` is `s - _gps_sec_week` and lies in `[0, 1)`, the two add up to `s`, and the time
conversion was handed `s`. -/
theorem seconds_split (E : Env) (o : GPSSimDataPoint) (pre post : List Str) (l text : Str)
    (s : ℚ) (log : List Event) (n : Nat)
    (hdp : o._dp = pre ++ l :: post)
    (hok : (parse_fields E o).2 = none)
    (hl : MatchString o._sc o._gps <+: l)
    (ht : find_tag l (MatchString o._sc o._gps).length tags = .ok (some Tag.Sec))
    (hlast : ∀ l1 ∈ post, MatchString o._sc o._gps <+: l1 →
      find_tag l1 (MatchString o._sc o._gps).length tags ≠ .ok (some Tag.Sec))
    (hv : value_text l = .ok text) (hs : stod E text = .ok s)
    (h0 : 0 ≤ s) (h1 : s < 2147483648) :
    ∃ s1, do_parsing E (n + 3) ⟨o, log⟩ = some s1 ∧
      s1.obj._gps_sec_week = trunc s ∧ trunc s = ⌊s⌋ ∧
      s1.obj._gps_frac_sec = s - (s1.obj._gps_sec_week : ℚ) ∧
      0 ≤ s1.obj._gps_frac_sec ∧ s1.obj._gps_frac_sec < 1 ∧
      (s1.obj._gps_sec_week : ℚ) + s1.obj._gps_frac_sec = s ∧
      s1.obj._abs_time =
        E.JDToAbsTime (E.GpsTimeToJD s1.obj._gps_rollover s1.obj._gps_week s) := by
  have hf := (last_line_field E o pre post l Tag.Sec text hdp hok hl ht hv hlast).2
  simp only [Tag.field, assign, hs, FieldValue.sec.injEq] at hf
  obtain ⟨hw, hfr⟩ := hf
  have ht0 := trunc_eq_floor s h0
  have hw1 : (parse_fields E o).1._gps_sec_week = ⌊s⌋ := by
    rw [hw, to_int32_eq_floor s h0 h1]
  have hfr1 : (parse_fields E o).1._gps_frac_sec = s - ((⌊s⌋ : Int) : ℚ) := by
    rw [hfr, to_int32_eq_floor s h0 h1]
  have hsum : (((parse_fields E o).1._gps_sec_week : Int) : ℚ) +
      (parse_fields E o).1._gps_frac_sec = s := by
    rw [hw1, hfr1]; ring
  refine ⟨_, do_parsing_eq E n _, ?_, ht0, ?_, ?_, ?_, hsum, ?_⟩
  · show (parse_fields E o).1._gps_sec_week = trunc s
    rw [hw1, ht0]
  · show (parse_fields E o).1._gps_frac_sec = s - ((parse_fields E o).1._gps_sec_week : ℚ)
    rw [hfr1, hw1]
  · show 0 ≤ (parse_fields E o).1._gps_frac_sec
    rw [hfr1]
    exact sub_nonneg.mpr (Int.floor_le s)
  · show (parse_fields E o).1._gps_frac_sec < 1
    rw [hfr1]
    have := Int.lt_floor_add_one s
    linarith
  · show (parse_fields E o).1._abs_time = _
    rw [← hsum]
    simp [parse_fields]

/-- C8 (witness): the line `Sec = 12345.75` gives `_gps_sec_week = 12345` and
`_gps_frac_sec = 0.75`. -/
theorem seconds_split_witness :
    ∃ s1, do_parsing reference_env 3
        ⟨GPSSimDataPoint.from_dp zero_mem 0 0 ["SC[0].AC.GPS[0].Sec = 12345.75".toList], []⟩
        = some s1 ∧
      s1.obj._gps_sec_week = 12345 ∧ s1.obj._gps_frac_sec = 3 / 4 ∧
      (s1.obj._gps_sec_week : ℚ) + s1.obj._gps_frac_sec = 49383 / 4 := by
  obtain ⟨s1, hs, hw, _, hfr, _, _, hsum, _⟩ := seconds_split reference_env
    (GPSSimDataPoint.from_dp zero_mem 0 0 ["SC[0].AC.GPS[0].Sec = 12345.75".toList])
    [] [] "SC[0].AC.GPS[0].Sec = 12345.75".toList " 12345.75".toList (49383 / 4) [] 0
    rfl (by decide!) (by decide) (by decide) (by simp) (by decide) (by decide!)
    (by norm_num) (by norm_num)
  have ht : trunc (49383 / 4 : ℚ) = 12345 := by decide!
  rw [ht] at hw
  refine ⟨s1, hs, hw, ?_, hsum⟩
  rw [hfr, hw]
  norm_num

/-! ## The tags and the members they write -/

theorem tag_text_length (t : Tag) : t.text.length = t.len := by
  cases t <;> rfl

theorem compare_after_prefix (MS tail : Str) (len : Nat) (y : Str) :
    compare (MS ++ tail) MS.length len y = .ok (compare3 (tail.take len) y) := by
  simp [compare]

/-- A line made of the prefix, the literal of tag `t` and any text is classified as `t`. -/
theorem find_tag_text (MS rest : Str) (t : Tag) :
    find_tag (MS ++ t.text ++ rest) MS.length tags = .ok (some t) := by
  rw [List.append_assoc]
  cases t <;>
    simp [find_tag, tags, compare_after_prefix, Tag.text, Tag.len, compare3, String.toList]

example (MS rest : Str) : find_tag (MS ++ Tag.Alt.text ++ rest) MS.length tags = .ok (some Tag.Alt) := find_tag_text MS rest Tag.Alt


theorem to_int16_of_range (v : Int) (h1 : -32768 ≤ v) (h2 : v ≤ 32767) : to_int16 v = v := by
  unfold to_int16
  omega

theorem assign_written (E : Env) (t : Tag) (text : Str) (o : GPSSimDataPoint)
    (hok : (assign E t text o).2 = none) :
    (t = .Rollover → ∃ v, stoi text = .ok v ∧ (assign E t text o).1._gps_rollover = to_int16 v) ∧
    (t = .Week → ∃ v, stoi text = .ok v ∧ (assign E t text o).1._gps_week = to_int16 v) ∧
    (t = .Sec → ∃ v, stod E text = .ok v ∧ (assign E t text o).1._gps_sec_week = to_int32 v ∧
        (assign E t text o).1._gps_frac_sec = v - (to_int32 v : ℚ)) ∧
    (t = .PosN → (assign E t text o).1._ECI = (E.parse_double_vector text o._ECI).1) ∧
    (t = .VelN → (assign E t text o).1._ECI_vel = (E.parse_double_vector text o._ECI_vel).1) ∧
    (t = .PosW → (assign E t text o).1._ECEF = (E.parse_double_vector text o._ECEF).1) ∧
    (t = .VelW → (assign E t text o).1._ECEF_vel = (E.parse_double_vector text o._ECEF_vel).1) ∧
    (t = .Lng → ∃ v, stod E text = .ok v ∧ (assign E t text o).1._gps_lng = v * 180 / M_PI) ∧
    (t = .Lat → ∃ v, stod E text = .ok v ∧ (assign E t text o).1._gps_lat = v * 180 / M_PI) ∧
    (t = .Alt → ∃ v, stod E text = .ok v ∧ (assign E t text o).1._gps_alt = v) := by
  cases t <;> simp only [assign] at hok ⊢ <;> first
    | (simp; done)
    | (split at hok
       · simp at hok
       · rename_i v hv
         simp [hv])

/-- C9: the tag-to-field mapping. A line made of the prefix, the literal of tag `t` and a
well-formed value runs the branch of `t`; the branch writes the member of `t` (`PosN` the ECI
position, `VelN` the ECI velocity, `PosW` the ECEF position, `VelW` the ECEF velocity, what
`parse_double_vector` returns; `Rollover` and `Week` the `int` read, converted to `int16_t`,
which is the `int` itself when it is an `int16_t`; `Alt` the number read, unchanged); the member of every other tag and the members no tag owns
are left as they were. On the end-to-end source, with the reference environment, the result is
the one the specification gives. -/
theorem tag_field_mapping (E : Env) (sc gps : Int) (t : Tag) (rest text : Str)
    (o : GPSSimDataPoint)
    (hv : value_text (MatchString sc gps ++ t.text ++ rest) = .ok text)
    (hok : (assign E t text o).2 = none) :
    (∃ r, loop_body E (MatchString sc gps) (MatchString sc gps ++ t.text ++ rest) o = (r, none) ∧
      (t = .Rollover → ∃ v, stoi text = .ok v ∧ r._gps_rollover = to_int16 v ∧
          (-32768 ≤ v → v ≤ 32767 → r._gps_rollover = v)) ∧
      (t = .Week → ∃ v, stoi text = .ok v ∧ r._gps_week = to_int16 v ∧
          (-32768 ≤ v → v ≤ 32767 → r._gps_week = v)) ∧
      (t = .Sec → ∃ v, stod E text = .ok v ∧ r._gps_sec_week = to_int32 v ∧
          r._gps_frac_sec = v - (to_int32 v : ℚ)) ∧
      (t = .PosN → r._ECI = (E.parse_double_vector text o._ECI).1) ∧
      (t = .VelN → r._ECI_vel = (E.parse_double_vector text o._ECI_vel).1) ∧
      (t = .PosW → r._ECEF = (E.parse_double_vector text o._ECEF).1) ∧
      (t = .VelW → r._ECEF_vel = (E.parse_double_vector text o._ECEF_vel).1) ∧
      (t = .Lng → ∃ v, stod E text = .ok v ∧ r._gps_lng = v * 180 / M_PI) ∧
      (t = .Lat → ∃ v, stod E text = .ok v ∧ r._gps_lat = v * 180 / M_PI) ∧
      (t = .Alt → ∃ v, stod E text = .ok v ∧ r._gps_alt = v) ∧
      (∀ t1 : Tag, t1 = t ∨ t1.field r = t1.field o) ∧
      r._not_parsed = o._not_parsed ∧ r._dp = o._dp ∧ r._sc = o._sc ∧ r._gps = o._gps ∧
      r._abs_time = o._abs_time) ∧
    ∃ s1, do_parsing reference_env 3
        ⟨GPSSimDataPoint.from_dp zero_mem 0 0 end_to_end_source, []⟩ = some s1 ∧
      s1.obj._gps_rollover = 2 ∧ s1.obj._gps_week = 100 ∧ s1.obj._gps_sec_week = 50000 ∧
      s1.obj._gps_frac_sec = 1 / 4 ∧ s1.obj._ECI = [1000, 2000, 3000] ∧
      s1.obj._ECEF_vel = [11 / 10, 21 / 10, 31 / 10] ∧ s1.obj._gps_alt = 500 ∧
      s1.log = [Event.scan, Event.conversion, Event.debug] := by
  constructor
  · have hp : MatchString sc gps <+: MatchString sc gps ++ t.text ++ rest := by
      rw [List.append_assoc]
      exact List.prefix_append _ _
    have hb := loop_body_tag E _ _ o t text hp (find_tag_text _ rest t) hv
    obtain ⟨w1, w2, w3, w4, w5, w6, w7, w8, w9, w10⟩ := assign_written E t text o hok
    refine ⟨(assign E t text o).1, ?_, ?_, ?_, w3, w4, w5, w6, w7, w8, w9, w10, ?_,
      assign_frame E t text o⟩
    rotate_left
    · intro h
      obtain ⟨v, a, b⟩ := w1 h
      exact ⟨v, a, b, fun h1 h2 => b.trans (to_int16_of_range v h1 h2)⟩
    · intro h
      obtain ⟨v, a, b⟩ := w2 h
      exact ⟨v, a, b, fun h1 h2 => b.trans (to_int16_of_range v h1 h2)⟩
    rotate_left
    · rw [hb, ← hok]
    · intro t1
      by_cases h : t1 = t
      · exact Or.inl h
      · exact Or.inr (assign_other E t1 t text o (fun h1 => h h1.symm))
  · exact ⟨_, do_parsing_eq reference_env 0 _, by decide!, by decide!, by decide!, by decide!,
      by decide!, by decide!, by decide!, by decide!⟩

/-- C9 (witness): the line `Alt = 500.0` on the zero storage writes `_gps_alt` and nothing
else. -/
theorem tag_field_mapping_witness :
    loop_body reference_env (MatchString 0 0) "SC[0].AC.GPS[0].Alt = 500.0".toList zero_mem
      = ({ zero_mem with _gps_alt := 500 }, none) := by
  obtain ⟨⟨r, hr, _⟩, _⟩ := tag_field_mapping reference_env 0 0 Tag.Alt
    "= 500.0".toList " 500.0".toList zero_mem (by decide) (by decide!)
  have h1 : MatchString 0 0 ++ Tag.Alt.text ++ "= 500.0".toList
      = "SC[0].AC.GPS[0].Alt = 500.0".toList := by decide
  rw [h1] at hr
  rw [hr]
  have h2 : (loop_body reference_env (MatchString 0 0) "SC[0].AC.GPS[0].Alt = 500.0".toList
      zero_mem).1 = { zero_mem with _gps_alt := 500 } := by decide!
  rw [hr] at h2
  simp only at h2
  rw [h2]

/-! ## White space around the equals sign -/

theorem eq_not_mem_MatchString (sc gps : Int) : '=' ∉ MatchString sc gps := by
  have h1 := dec_not_mem sc '=' (by decide) (by decide)
  have h2 := dec_not_mem gps '=' (by decide) (by decide)
  simp [MatchString, h1, h2, String.toList]

theorem eq_not_mem_tag (t : Tag) : '=' ∉ t.text := by
  cases t <;> decide

theorem eq_not_mem_space (ws : Str) (h : ∀ c ∈ ws, isspace c = true) : '=' ∉ ws := by
  intro hm
  exact absurd (h _ hm) (by decide)

/-- The value text of a line is what follows its first `=`. -/
theorem value_text_at (head tail : Str) (h : '=' ∉ head)
    (hlen : (head ++ '=' :: tail).length < SIZE_MOD) :
    value_text (head ++ '=' :: tail) = .ok tail := by
  have hidx : find_first_of (head ++ '=' :: tail) '=' = head.length := by
    rw [find_first_of, if_pos (by simp), List.indexOf_append_of_not_mem h]
    simp
  have hl : (head ++ '=' :: tail).length = head.length + (tail.length + 1) := by simp
  rw [hl] at hlen
  have a1 : size_add head.length 1 = head.length + 1 := by
    rw [size_add, Nat.mod_eq_of_lt (by omega)]
  have a2 : size_sub (head.length + (tail.length + 1)) head.length = tail.length + 1 := by
    rw [size_sub, Nat.mod_eq_of_lt (by omega : head.length < SIZE_MOD)]
    have : head.length + (tail.length + 1) + SIZE_MOD - head.length
        = tail.length + 1 + SIZE_MOD := by omega
    rw [this, Nat.add_mod_right, Nat.mod_eq_of_lt (by omega)]
  have a3 : size_sub (tail.length + 1) 1 = tail.length := by
    have h1 : (1 : Nat) < SIZE_MOD := by decide
    rw [size_sub, Nat.mod_eq_of_lt h1]
    have : tail.length + 1 + SIZE_MOD - 1 = tail.length + SIZE_MOD := by omega
    rw [this, Nat.add_mod_right, Nat.mod_eq_of_lt (by omega)]
  rw [value_text, hidx, hl, a1, a2, a3, substr, if_neg (by simp)]
  have hd : List.drop (head.length + 1) (head ++ '=' :: tail) = tail := by
    rw [show head ++ '=' :: tail = (head ++ ['=']) ++ tail by simp]
    exact List.drop_left' (by simp)
  rw [hd, List.take_length]

theorem dropWhile_space (ws v : Str) (h : ∀ c ∈ ws, isspace c = true) :
    (ws ++ v).dropWhile isspace = v.dropWhile isspace := by
  induction ws with
  | nil => rfl
  | cons c cs ih =>
    rw [List.cons_append, List.dropWhile_cons_of_pos (h c (by simp))]
    exact ih (fun c1 hc1 => h c1 (by simp [hc1]))

theorem stoi_space (ws v : Str) (h : ∀ c ∈ ws, isspace c = true) : stoi (ws ++ v) = stoi v := by
  simp only [stoi, dropWhile_space ws v h]

theorem stod_space (E : Env) (ws v : Str) (h : ∀ c ∈ ws, isspace c = true) :
    stod E (ws ++ v) = stod E v := by
  simp only [stod, dropWhile_space ws v h]

theorem assign_space (E : Env) (t : Tag) (ws v : Str) (o : GPSSimDataPoint)
    (h : ∀ c ∈ ws, isspace c = true)
    (hvec : t.is_vector = true → ∀ (ws text : Str) (dv : List ℚ),
      (∀ c ∈ ws, isspace c = true) →
      E.parse_double_vector (ws ++ text) dv = E.parse_double_vector text dv) :
    assign E t (ws ++ v) o = assign E t v o := by
  cases t <;> simp only [assign, stoi_space ws v h, stod_space E ws v h] <;>
    rw [hvec rfl ws v _ h]

theorem scan_congr_line (E : Env) (MS : Str) (pre post : List Str) (l1 l2 : Str)
    (h : ∀ o, loop_body E MS l1 o = loop_body E MS l2 o) (o : GPSSimDataPoint) :
    scan E MS (pre ++ l1 :: post) o = scan E MS (pre ++ l2 :: post) o := by
  rw [scan_append, scan_append]
  simp only [scan, h]

theorem parse_fields_set_dp (E : Env) (o : GPSSimDataPoint) (d : List Str)
    (h : ∀ o1, scan E (MatchString o._sc o._gps) d o1 =
      scan E (MatchString o._sc o._gps) o._dp o1) :
    parse_fields E { o with _dp := d } =
      ({ (parse_fields E o).1 with _dp := d }, (parse_fields E o).2) := by
  simp only [parse_fields, h]
  rw [show ({ o with _dp := d, _not_parsed := false } : GPSSimDataPoint) =
    { ({ o with _not_parsed := false } : GPSSimDataPoint) with _dp := d } from rfl, scan_set_dp]

/-- C10 (counterexample): the value `100` is well formed and the line `Week = 100` sets
`_gps_week` to 100, but with no white space before `=` (`Week=100`), or with a tab instead of
the blank (`Week<tab>= 100`), the line is not recognized and `_gps_week` keeps the value it
had, here 0. -/
theorem tag_needs_its_blank :
    stoi "100".toList = .ok 100 ∧
    (do_parsing reference_env 3
      ⟨GPSSimDataPoint.from_dp zero_mem 0 0 ["SC[0].AC.GPS[0].Week = 100".toList], []⟩).map
      (fun s => s.obj._gps_week) = some 100 ∧
    (do_parsing reference_env 3
      ⟨GPSSimDataPoint.from_dp zero_mem 0 0 ["SC[0].AC.GPS[0].Week=100".toList], []⟩).map
      (fun s => s.obj._gps_week) = some 0 ∧
    (do_parsing reference_env 3
      ⟨GPSSimDataPoint.from_dp zero_mem 0 0
        ["SC[0].AC.GPS[0].Week".toList ++ Char.ofNat 9 :: "= 100".toList], []⟩).map
      (fun s => s.obj._gps_week) = some 0 := by
  decide

/-- C10 (amended): once the tag is followed by its blank, the white space around `=` is
arbitrary. For every tag `t`, value text `v` and runs `ws1`, `ws2` of white space, the line
prefix, tag literal (which ends in a blank), `ws1`, `=`, `ws2`, `v` has the same effect on every
object as the line prefix, tag literal, `= `, `v`, and `do_parsing` gives the same result for two
sources that differ in that line only; for the four vector tags this needs that
`parse_double_vector` ignores leading white space. -/
theorem whitespace_around_equals (E : Env) (sc gps : Int) (t : Tag) (ws1 ws2 v : Str)
    (h1 : ∀ c ∈ ws1, isspace c = true) (h2 : ∀ c ∈ ws2, isspace c = true)
    (hsize1 : (MatchString sc gps ++ t.text ++ ws1 ++ '=' :: (ws2 ++ v)).length < SIZE_MOD)
    (hsize2 : (MatchString sc gps ++ t.text ++ '=' :: ' ' :: v).length < SIZE_MOD)
    (hvec : t.is_vector = true → ∀ (ws text : Str) (dv : List ℚ),
      (∀ c ∈ ws, isspace c = true) →
      E.parse_double_vector (ws ++ text) dv = E.parse_double_vector text dv) :
    (∀ o, loop_body E (MatchString sc gps)
        (MatchString sc gps ++ t.text ++ ws1 ++ '=' :: (ws2 ++ v)) o =
      loop_body E (MatchString sc gps) (MatchString sc gps ++ t.text ++ '=' :: ' ' :: v) o) ∧
    ∀ (mem : GPSSimDataPoint) (pre post : List Str) (log : List Event) (n : Nat), ∃ s1 s2,
      do_parsing E (n + 3) ⟨GPSSimDataPoint.from_dp mem sc gps
        (pre ++ (MatchString sc gps ++ t.text ++ ws1 ++ '=' :: (ws2 ++ v)) :: post), log⟩
        = some s1 ∧
      do_parsing E (n + 3) ⟨GPSSimDataPoint.from_dp mem sc gps
        (pre ++ (MatchString sc gps ++ t.text ++ '=' :: ' ' :: v) :: post), log⟩ = some s2 ∧
      s1 = { s2 with obj := { s2.obj with
        _dp := pre ++ (MatchString sc gps ++ t.text ++ ws1 ++ '=' :: (ws2 ++ v)) :: post } } := by
  have hm := eq_not_mem_MatchString sc gps
  have ht := eq_not_mem_tag t
  have hw := eq_not_mem_space ws1 h1
  have hbody : ∀ o, loop_body E (MatchString sc gps)
        (MatchString sc gps ++ t.text ++ ws1 ++ '=' :: (ws2 ++ v)) o =
      loop_body E (MatchString sc gps) (MatchString sc gps ++ t.text ++ '=' :: ' ' :: v) o := by
    intro o
    have v1 := value_text_at (MatchString sc gps ++ t.text ++ ws1) (ws2 ++ v)
      (by simp [hm, ht, hw]) hsize1
    have v2 := value_text_at (MatchString sc gps ++ t.text) (' ' :: v)
      (by simp [hm, ht]) hsize2
    have p1 : MatchString sc gps <+: MatchString sc gps ++ t.text ++ ws1 ++ '=' :: (ws2 ++ v) := by
      rw [List.append_assoc, List.append_assoc]
      exact List.prefix_append _ _
    have p2 : MatchString sc gps <+: MatchString sc gps ++ t.text ++ '=' :: ' ' :: v := by
      rw [List.append_assoc]
      exact List.prefix_append _ _
    have f1 : find_tag (MatchString sc gps ++ t.text ++ ws1 ++ '=' :: (ws2 ++ v))
        (MatchString sc gps).length tags = .ok (some t) := by
      rw [List.append_assoc (MatchString sc gps ++ t.text)]
      exact find_tag_text _ _ t
    rw [loop_body_tag E _ _ o t _ p1 f1 v1,
      loop_body_tag E _ _ o t _ p2 (find_tag_text _ _ t) v2,
      assign_space E t ws2 v o h2 hvec,
      show (' ' :: v) = [' '] ++ v from rfl,
      assign_space E t [' '] v o (by simp; decide) hvec]
  refine ⟨hbody, fun mem pre post log n => ⟨_, _, do_parsing_eq E n _, do_parsing_eq E n _, ?_⟩⟩
  have hp := parse_fields_set_dp E
    (GPSSimDataPoint.from_dp mem sc gps
      (pre ++ (MatchString sc gps ++ t.text ++ '=' :: ' ' :: v) :: post))
    (pre ++ (MatchString sc gps ++ t.text ++ ws1 ++ '=' :: (ws2 ++ v)) :: post)
    (fun o1 => scan_congr_line E (MatchString sc gps) pre post _ _ hbody o1)
  have hf : GPSSimDataPoint.from_dp mem sc gps
      (pre ++ (MatchString sc gps ++ t.text ++ ws1 ++ '=' :: (ws2 ++ v)) :: post) =
    { GPSSimDataPoint.from_dp mem sc gps
      (pre ++ (MatchString sc gps ++ t.text ++ '=' :: ' ' :: v) :: post) with
      _dp := pre ++ (MatchString sc gps ++ t.text ++ ws1 ++ '=' :: (ws2 ++ v)) :: post } := rfl
  simp only [hf, hp]


theorem tokens_space (strtod : Str → Except Exn ℚ) (ws text : Str) (dv : List ℚ)
    (h : ∀ c ∈ ws, isspace c = true) :
    parse_double_vector_spec strtod (ws ++ text) dv = parse_double_vector_spec strtod text dv := by
  induction ws with
  | nil => rfl
  | cons c cs ih =>
    rw [← ih (fun c1 hc1 => h c1 (by simp [hc1]))]
    have hc : (isspace c || c == ',') = true := by simp [h c (by simp)]
    simp only [parse_double_vector_spec, List.cons_append, List.splitOnP_cons, hc, if_true]
    rfl

/-- C10 (witness): on the zero storage the line `PosN <tab>=  1, 2, 3` has the effect of the
line `PosN = 1, 2, 3`, which writes `_ECI`; the reference `parse_double_vector` ignores leading
white space. -/
theorem whitespace_around_equals_witness :
    loop_body reference_env (MatchString 0 0)
        ("SC[0].AC.GPS[0].PosN ".toList ++ Char.ofNat 9 :: "=  1, 2, 3".toList) zero_mem =
      loop_body reference_env (MatchString 0 0) "SC[0].AC.GPS[0].PosN = 1, 2, 3".toList zero_mem ∧
    loop_body reference_env (MatchString 0 0) "SC[0].AC.GPS[0].PosN = 1, 2, 3".toList zero_mem =
      ({ zero_mem with _ECI := [1, 2, 3] }, none) :=
  ⟨(whitespace_around_equals reference_env 0 0 Tag.PosN [Char.ofNat 9] [' ', ' ']
    "1, 2, 3".toList (by decide) (by decide) (by decide) (by decide)
    (fun _ ws text dv h => tokens_space strtod_decimal ws text dv h)).1 zero_mem, by decide!⟩

/-! ## The length of the vectors -/

theorem assign_len3 (E : Env) (t : Tag) (text : Str) (o : GPSSimDataPoint)
    (hE : ∀ (text : Str) (dv : List ℚ), dv.length = 3 →
      (E.parse_double_vector text dv).1.length = 3)
    (h : len3 o) : len3 (assign E t text o).1 := by
  obtain ⟨h1, h2, h3, h4⟩ := h
  cases t <;> simp only [assign] <;> (try split) <;>
    simp [len3, h1, h2, h3, h4, hE]

theorem loop_body_len3 (E : Env) (MS line : Str) (o : GPSSimDataPoint)
    (hE : ∀ (text : Str) (dv : List ℚ), dv.length = 3 →
      (E.parse_double_vector text dv).1.length = 3)
    (h : len3 o) : len3 (loop_body E MS line o).1 := by
  unfold loop_body
  split
  · exact h
  · split
    · exact h
    · split
      · exact h
      · exact h
      · split
        · exact h
        · exact assign_len3 E _ _ o hE h

theorem scan_len3 (E : Env) (MS : Str) (lines : List Str) (o : GPSSimDataPoint)
    (hE : ∀ (text : Str) (dv : List ℚ), dv.length = 3 →
      (E.parse_double_vector text dv).1.length = 3)
    (h : len3 o) : len3 (scan E MS lines o).1 := by
  induction lines generalizing o with
  | nil => exact h
  | cons l ls ih =>
    have h1 := loop_body_len3 E MS l o hE h
    rw [scan]
    split
    · rename_i o1 heq
      rw [heq] at h1
      exact ih o1 h1
    · rename_i o1 e heq
      rw [heq] at h1
      exact h1

theorem parse_fields_len3 (E : Env) (o : GPSSimDataPoint)
    (hE : ∀ (text : Str) (dv : List ℚ), dv.length = 3 →
      (E.parse_double_vector text dv).1.length = 3)
    (h : len3 o) : len3 (parse_fields E o).1 := by
  have := scan_len3 E (MatchString o._sc o._gps) o._dp { o with _not_parsed := false } hE h
  exact this

theorem at_index_some (v : List ℚ) (i : Nat) (h : i < v.length) : at_index v i ≠ none := by
  simp [at_index, List.get?_eq_none]
  omega

theorem read_in_bounds (a : Accessor) (o : GPSSimDataPoint) (h : len3 o) :
    a.read o ≠ Value.elem none ∧ ∀ vals, a.read o = Value.text vals → none ∉ vals := by
  obtain ⟨h1, h2, h3, h4⟩ := h
  have e0 := at_index_some o._ECEF 0 (by omega)
  have e1 := at_index_some o._ECEF 1 (by omega)
  have e2 := at_index_some o._ECEF 2 (by omega)
  have v0 := at_index_some o._ECEF_vel 0 (by omega)
  have v1 := at_index_some o._ECEF_vel 1 (by omega)
  have v2 := at_index_some o._ECEF_vel 2 (by omega)
  have i0 := at_index_some o._ECI 0 (by omega)
  have i1 := at_index_some o._ECI 1 (by omega)
  have i2 := at_index_some o._ECI 2 (by omega)
  have w0 := at_index_some o._ECI_vel 0 (by omega)
  have w1 := at_index_some o._ECI_vel 1 (by omega)
  have w2 := at_index_some o._ECI_vel 2 (by omega)
  cases a <;> simp [Accessor.read, streamed, *] <;>
    exact ⟨Ne.symm e0, Ne.symm e1, Ne.symm e2, Ne.symm v0, Ne.symm v1, Ne.symm v2,
      Ne.symm i0, Ne.symm i1, Ne.symm i2, Ne.symm w0, Ne.symm w1, Ne.symm w2⟩

theorem stod_all_length (strtod : Str → Except Exn ℚ) (toks : List Str) (vs : List ℚ)
    (h : stod_all strtod toks = .ok vs) : vs.length = toks.length := by
  induction toks generalizing vs with
  | nil =>
    simp only [stod_all, Except.ok.injEq] at h
    rw [← h]
    rfl
  | cons t ts ih =>
    rw [stod_all] at h
    split at h
    · simp at h
    · split at h
      · simp at h
      · rename_i vs1 hvs
        simp only [Except.ok.injEq] at h
        rw [← h, List.length_cons, ih vs1 hvs, List.length_cons]

theorem parse_double_vector_spec_length (strtod : Str → Except Exn ℚ) (text : Str)
    (dv : List ℚ) (h : dv.length = 3) :
    (parse_double_vector_spec strtod text dv).1.length = 3 := by
  unfold parse_double_vector_spec
  simp only
  split
  · rename_i h3
    split
    · exact h
    · rename_i vs hvs
      simp only
      rw [stod_all_length strtod _ vs hvs, h3]
  · exact h

/-- C11 (counterexample): the constructor from explicit values stores the vectors it is given;
built with empty vectors, the object has no component to return and `get_ECEF_x()` reads past
the end. -/
theorem explicit_keeps_argument_vectors :
    ¬ len3 (GPSSimDataPoint.explicit zero_mem 0 0 0 0 [] [] [] []) ∧
    (call reference_env Accessor.get_ECEF_x 5
      ⟨GPSSimDataPoint.explicit zero_mem 0 0 0 0 [] [] [] [], []⟩).map Prod.fst
      = some (Value.elem none) := by
  decide

/-- C11 (amended): the default constructor and the constructor from a data point give the four
vectors three components; the constructor from explicit values gives them three components
exactly when its four argument vectors have three. When `parse_double_vector` returns
three-component vectors, an object whose vectors have three components keeps them so through
every accessor and rendering call and through `do_parsing`, and no such call reads past the end
of a vector. -/
theorem vectors_have_three (E : Env) (mem : GPSSimDataPoint) (sc gps : Int) (dp : List Str)
    (abs_time : ℚ) (gps_week gps_sec_week : Int) (gps_frac_sec : ℚ)
    (ECEF ECEF_vel ECI ECI_vel : List ℚ)
    (hE : ∀ (text : Str) (dv : List ℚ), dv.length = 3 →
      (E.parse_double_vector text dv).1.length = 3) :
    len3 (GPSSimDataPoint.default mem) ∧
    len3 (GPSSimDataPoint.from_dp mem sc gps dp) ∧
    (len3 (GPSSimDataPoint.explicit mem abs_time gps_week gps_sec_week gps_frac_sec
        ECEF ECEF_vel ECI ECI_vel) ↔
      ECEF.length = 3 ∧ ECEF_vel.length = 3 ∧ ECI.length = 3 ∧ ECI_vel.length = 3) ∧
    (∀ (s : State) (n : Nat), len3 s.obj →
      ∃ s1, do_parsing E (n + 3) s = some s1 ∧ len3 s1.obj) ∧
    (∀ (s : State) (a : Accessor) (n : Nat), len3 s.obj →
      ∃ v s1, call E a (n + 5) s = some (v, s1) ∧ len3 s1.obj ∧
        v ≠ Value.elem none ∧ ∀ vals, v = Value.text vals → none ∉ vals) := by
  refine ⟨by simp [len3, GPSSimDataPoint.default, zeros],
    by simp [len3, GPSSimDataPoint.from_dp, zeros],
    by simp [len3, GPSSimDataPoint.explicit], ?_, ?_⟩
  · intro s n h
    exact ⟨_, do_parsing_eq E n s, parse_fields_len3 E s.obj hE h⟩
  · intro s a n h
    have hl : len3 (if s.obj._not_parsed then (parse_fields E s.obj).1 else s.obj) := by
      split
      · exact parse_fields_len3 E s.obj hE h
      · exact h
    refine ⟨_, _, call_eq E a n s, ?_, read_in_bounds a _ hl⟩
    split
    · exact parse_fields_len3 E s.obj hE h
    · exact h

/-- C11 (witness): the reference environment, whose `parse_double_vector` returns three
components or leaves the vector as it was. -/
theorem vectors_have_three_witness :
    len3 (GPSSimDataPoint.default zero_mem) ∧
    len3 (GPSSimDataPoint.from_dp zero_mem 0 0 end_to_end_source) ∧
    (len3 (GPSSimDataPoint.explicit zero_mem 1 2 3 (1 / 2) [1, 2, 3] [4, 5, 6] [7, 8, 9] [1, 1, 1])
      ↔ [(1 : ℚ), 2, 3].length = 3 ∧ [(4 : ℚ), 5, 6].length = 3 ∧ [(7 : ℚ), 8, 9].length = 3 ∧
        [(1 : ℚ), 1, 1].length = 3) ∧
    (∀ (s : State) (n : Nat), len3 s.obj →
      ∃ s1, do_parsing reference_env (n + 3) s = some s1 ∧ len3 s1.obj) ∧
    (∀ (s : State) (a : Accessor) (n : Nat), len3 s.obj →
      ∃ v s1, call reference_env a (n + 5) s = some (v, s1) ∧ len3 s1.obj ∧
        v ≠ Value.elem none ∧ ∀ vals, v = Value.text vals → none ∉ vals) :=
  vectors_have_three reference_env zero_mem 0 0 end_to_end_source 1 2 3 (1 / 2)
    [1, 2, 3] [4, 5, 6] [7, 8, 9] [1, 1, 1]
    (fun text dv h => parse_double_vector_spec_length strtod_decimal text dv h)

/-! ## The constructor from explicit values -/

/-- C12: the explicit-values round trip. The object the constructor from explicit values builds
is already parsed; every accessor call on it returns at once, leaves the object and the log as
they are (no scan, no time conversion), and the value returned is the one supplied: `abs_time`,
`gps_week`, `gps_sec_week`, `gps_frac_sec`, and the components of `ECEF` and `ECEF_vel`. -/
theorem explicit_round_trip (E : Env) (mem : GPSSimDataPoint) (abs_time : ℚ)
    (gps_week gps_sec_week : Int) (gps_frac_sec x y z vx vy vz : ℚ) (ECI ECI_vel : List ℚ)
    (log : List Event) (n : Nat) :
    (GPSSimDataPoint.explicit mem abs_time gps_week gps_sec_week gps_frac_sec
      [x, y, z] [vx, vy, vz] ECI ECI_vel)._not_parsed = false ∧
    (∀ a : Accessor, ∃ v,
      call E a (n + 5) ⟨GPSSimDataPoint.explicit mem abs_time gps_week gps_sec_week gps_frac_sec
        [x, y, z] [vx, vy, vz] ECI ECI_vel, log⟩ =
      some (v, ⟨GPSSimDataPoint.explicit mem abs_time gps_week gps_sec_week gps_frac_sec
        [x, y, z] [vx, vy, vz] ECI ECI_vel, log⟩) ∧
      (a = .get_abs_time → v = .real abs_time) ∧
      (a = .get_gps_week → v = .int gps_week) ∧
      (a = .get_gps_sec_week → v = .int gps_sec_week) ∧
      (a = .get_gps_frac_sec → v = .real gps_frac_sec) ∧
      (a = .get_ECEF_x → v = .elem (some x)) ∧
      (a = .get_ECEF_y → v = .elem (some y)) ∧
      (a = .get_ECEF_z → v = .elem (some z)) ∧
      (a = .get_ECEF_vx → v = .elem (some vx)) ∧
      (a = .get_ECEF_vy → v = .elem (some vy)) ∧
      (a = .get_ECEF_vz → v = .elem (some vz))) := by
  refine ⟨rfl, fun a => ⟨_, call_parsed E a n _ rfl, ?_⟩⟩
  cases a <;> simp [Accessor.read, GPSSimDataPoint.explicit, at_index]

/-! ## Lines with an unrecognized tag -/

theorem find_tag_none_of (MS rem : Str) (ts : List Tag) (h : ∀ t ∈ ts, ¬ t.text <+: rem) :
    find_tag (MS ++ rem) MS.length ts = .ok none := by
  induction ts with
  | nil => rfl
  | cons t ts ih =>
    have hne : compare3 (rem.take t.len) t.text ≠ 0 := by
      intro h0
      apply h t (by simp)
      rw [← compare3_eq_zero _ _ h0]
      exact List.take_prefix _ _
    simp only [find_tag, compare_after_prefix, hne, if_false]
    exact ih (fun t1 h1 => h t1 (by simp [h1]))

/-- A line under the prefix whose remainder starts with no tag literal leaves the object as it
is and throws nothing. -/
theorem loop_body_unrecognized (E : Env) (MS rem : Str) (o : GPSSimDataPoint)
    (h : ∀ t : Tag, ¬ t.text <+: rem) : loop_body E MS (MS ++ rem) o = (o, none) := by
  have hp : MS <+: MS ++ rem := List.prefix_append _ _
  simp [loop_body, (compare_prefix_iff _ MS).mpr hp, find_tag_none_of MS rem tags (fun t _ => h t)]

theorem scan_remove (E : Env) (MS : Str) (pre post : List Str) (line : Str)
    (h : ∀ o, loop_body E MS line o = (o, none)) (o : GPSSimDataPoint) :
    scan E MS (pre ++ line :: post) o = scan E MS (pre ++ post) o := by
  rw [scan_append, scan_append]
  simp only [scan, h]

/-- C13: unrecognized tags are ignored. A line made of the prefix and a remainder that starts
with none of the ten tag literals (tag and blank) changes no member and raises no exception,
whatever the remainder holds; and parsing a source gives the same members, flag and log as
parsing the source with that line removed: the two results differ in the stored source only. -/
theorem unrecognized_tag_ignored (E : Env) (o : GPSSimDataPoint) (pre post : List Str)
    (rem : Str) (log : List Event) (n : Nat)
    (hdp : o._dp = pre ++ (MatchString o._sc o._gps ++ rem) :: post)
    (hrem : ∀ t : Tag, ¬ t.text <+: rem) :
    (∀ o1, loop_body E (MatchString o._sc o._gps) (MatchString o._sc o._gps ++ rem) o1
      = (o1, none)) ∧
    ∃ s1 s2, do_parsing E (n + 3) ⟨o, log⟩ = some s1 ∧
      do_parsing E (n + 3) ⟨{ o with _dp := pre ++ post }, log⟩ = some s2 ∧
      s2 = { s1 with obj := { s1.obj with _dp := pre ++ post } } := by
  have hb := fun o1 => loop_body_unrecognized E (MatchString o._sc o._gps) rem o1 hrem
  refine ⟨hb, _, _, do_parsing_eq E n _, do_parsing_eq E n _, ?_⟩
  have hp := parse_fields_set_dp E o (pre ++ post) (fun o1 => by
    rw [hdp]
    exact (scan_remove E _ pre post _ hb o1).symm)
  simp only [hp]

/-- C13 (witness): the lines `Foo = 1`, `Weekday = x` and the bare prefix under receiver 0; the
source with `Weekday = x` between two `Week` lines parses as the source without it. -/
theorem unrecognized_tag_ignored_witness :
    (∀ t : Tag, ¬ t.text <+: "Foo = 1".toList) ∧ (∀ t : Tag, ¬ t.text <+: []) ∧
    (∀ o1, loop_body reference_env (MatchString 0 0) (MatchString 0 0 ++ "Weekday = x".toList) o1
      = (o1, none)) ∧
    ∃ s1 s2,
      do_parsing reference_env 3 ⟨GPSSimDataPoint.from_dp zero_mem 0 0
        ["SC[0].AC.GPS[0].Week = 100".toList, MatchString 0 0 ++ "Weekday = x".toList,
         "SC[0].AC.GPS[0].Rollover = 2".toList], []⟩ = some s1 ∧
      do_parsing reference_env 3 ⟨{ GPSSimDataPoint.from_dp zero_mem 0 0
        ["SC[0].AC.GPS[0].Week = 100".toList, MatchString 0 0 ++ "Weekday = x".toList,
         "SC[0].AC.GPS[0].Rollover = 2".toList] with
        _dp := ["SC[0].AC.GPS[0].Week = 100".toList] ++
          ["SC[0].AC.GPS[0].Rollover = 2".toList] }, []⟩ = some s2 ∧
      s2 = { s1 with obj := { s1.obj with
        _dp := ["SC[0].AC.GPS[0].Week = 100".toList] ++
          ["SC[0].AC.GPS[0].Rollover = 2".toList] } } :=
  ⟨fun t => by cases t <;> decide, fun t => by cases t <;> decide,
    unrecognized_tag_ignored reference_env
      (GPSSimDataPoint.from_dp zero_mem 0 0
        ["SC[0].AC.GPS[0].Week = 100".toList, MatchString 0 0 ++ "Weekday = x".toList,
         "SC[0].AC.GPS[0].Rollover = 2".toList])
      ["SC[0].AC.GPS[0].Week = 100".toList] ["SC[0].AC.GPS[0].Rollover = 2".toList]
      "Weekday = x".toList [] 0 rfl (fun t => by cases t <;> decide)⟩

/-! ## Reading back the decimal text of an integer -/

theorem digitChar_value : ∀ d, d < 10 → (Nat.digitChar d).toNat - 48 = d := by decide

theorem foldl_digitChar (xs : List Nat) (h : ∀ d ∈ xs, d < 10) (acc : Nat) :
    (xs.map Nat.digitChar).foldl (fun a c => a * 10 + (c.toNat - 48)) acc =
      xs.foldl (fun a d => a * 10 + d) acc := by
  induction xs generalizing acc with
  | nil => rfl
  | cons x xs ih =>
    simp only [List.map_cons, List.foldl_cons, digitChar_value x (h x (by simp))]
    exact ih (fun d hd => h d (by simp [hd])) _

theorem foldl_reverse_ofDigits (xs : List Nat) :
    xs.reverse.foldl (fun a d => a * 10 + d) 0 = Nat.ofDigits 10 xs := by
  induction xs with
  | nil => rfl
  | cons x xs ih =>
    rw [List.reverse_cons, List.foldl_append, ih, Nat.ofDigits_cons]
    simp only [List.foldl_cons, List.foldl_nil]
    ring

theorem digits_value_toDigits (n : Nat) : digits_value (Nat.toDigits 10 n) = n := by
  rcases Nat.eq_zero_or_pos n with rfl | hn
  · decide
  · rw [toDigits_pos n hn, digits_value,
      foldl_digitChar _ (fun d hd => Nat.digits_lt_base (by norm_num) (List.mem_reverse.mp hd)),
      foldl_reverse_ofDigits, Nat.ofDigits_digits]

theorem isdigit_not_space (c : Char) (h : isdigit c = true) : isspace c = false := by
  simp only [isdigit, Bool.and_eq_true, decide_eq_true_eq] at h
  simp only [isspace, Bool.or_eq_false_iff, beq_eq_false_iff_ne, ne_eq, Bool.and_eq_false_imp,
    decide_eq_true_eq, decide_eq_false_iff_not]
  omega

theorem take_sign_digit (c : Char) (r : Str) (h : isdigit c = true) :
    take_sign (c :: r) = (false, c :: r) := by
  have h1 : c ≠ '-' := isdigit_ne c '-' (by decide) h
  have h2 : c ≠ '+' := isdigit_ne c '+' (by decide) h
  unfold take_sign
  split
  · rename_i heq
    simp only [List.cons.injEq] at heq
    exact absurd heq.1 h1
  · rename_i heq
    simp only [List.cons.injEq] at heq
    exact absurd heq.1 h2
  · rfl

theorem takeWhile_all (p : Char → Bool) (ds : Str) (h : ∀ c ∈ ds, p c = true) :
    ds.takeWhile p = ds := by
  induction ds with
  | nil => rfl
  | cons c cs ih =>
    rw [List.takeWhile_cons_of_pos (h c (by simp)), ih (fun c1 h1 => h c1 (by simp [h1]))]

theorem stoi_toDigits (neg : Bool) (n : Nat)
    (hr : ¬ ((if neg then -(n : Int) else (n : Int)) < INT_MIN ∨
      INT_MAX < (if neg then -(n : Int) else (n : Int)))) :
    stoi ((if neg then ['-'] else []) ++ Nat.toDigits 10 n) =
      .ok (if neg then -(n : Int) else (n : Int)) := by
  have hne := toDigits_ne_nil n
  have hd := toDigits_isdigit n
  cases hds : Nat.toDigits 10 n with
  | nil => exact absurd hds hne
  | cons c cs =>
    have hc : isdigit c = true := hd c (by simp [hds])
    have hall : ∀ c1 ∈ c :: cs, isdigit c1 = true := by
      intro c1 h1
      exact hd c1 (by rw [hds]; exact h1)
    have hv : digits_value (c :: cs) = n := by
      rw [← hds]
      exact digits_value_toDigits n
    cases neg with
    | false =>
      simp only [Bool.false_eq_true, if_false, List.nil_append] at hr ⊢
      unfold stoi
      simp only [List.dropWhile_cons_of_neg (by simp [isdigit_not_space c hc] :
        ¬ isspace c = true), take_sign_digit c cs hc, takeWhile_all isdigit _ hall, hv]
      simp [hr]
    | true =>
      simp only [if_true, List.singleton_append] at hr ⊢
      unfold stoi
      have hm : isspace '-' = false := by decide
      simp only [List.dropWhile_cons_of_neg (by simp [hm] : ¬ isspace '-' = true), take_sign,
        takeWhile_all isdigit _ hall, hv]
      simp [hr]

/-- Reading the decimal text of an `int` gives the `int` back. -/
theorem stoi_dec (v : Int) (h1 : INT_MIN ≤ v) (h2 : v ≤ INT_MAX) : stoi (dec v) = .ok v := by
  cases v with
  | ofNat n =>
    have := stoi_toDigits false n (by
      simp only [Bool.false_eq_true, if_false]
      simp only [Int.ofNat_eq_coe] at h1 h2
      omega)
    simpa [dec_ofNat] using this
  | negSucc m =>
    have hneg : Int.negSucc m = -((m + 1 : Nat) : Int) := rfl
    have := stoi_toDigits true (m + 1) (by
      simp only [if_true]
      rw [hneg] at h1 h2
      omega)
    rw [dec_negSucc]
    simpa [hneg] using this

/-- C14 (counterexample): the value of the line `Week = 40000` is the decimal text of 40000,
which `stoi` reads as 40000, and `get_gps_week()` returns -25536; the same holds of `Rollover`
and `get_gps_rollover()`. -/
theorem week_outside_int16_not_verbatim :
    value_text "SC[0].AC.GPS[0].Week = 40000".toList = .ok (' ' :: dec 40000) ∧
    stoi (' ' :: dec 40000) = .ok 40000 ∧
    (call reference_env Accessor.get_gps_week 5
      ⟨GPSSimDataPoint.from_dp zero_mem 0 0 ["SC[0].AC.GPS[0].Week = 40000".toList], []⟩).map
      Prod.fst = some (Value.int (-25536)) ∧
    (call reference_env Accessor.get_gps_rollover 5
      ⟨GPSSimDataPoint.from_dp zero_mem 0 0 ["SC[0].AC.GPS[0].Rollover = 40000".toList], []⟩).map
      Prod.fst = some (Value.int (-25536)) := by
  decide

/-- C14 (amended): `Rollover` and `Week` are stored verbatim within the range of `int16_t`. When
no exception leaves the scan and the last `Week` (respectively `Rollover`) line under the
prefix has as its value white space followed by the decimal text of an integer `v` with
`-32768 ≤ v ≤ 32767`, then on the unparsed object `get_gps_week()` (respectively
`get_gps_rollover()`) returns `v`. -/
theorem week_rollover_verbatim_in_range (E : Env) (o : GPSSimDataPoint) (pre post : List Str)
    (l ws : Str) (t : Tag) (v : Int) (log : List Event) (n : Nat)
    (hnp : o._not_parsed = true)
    (hdp : o._dp = pre ++ l :: post)
    (hok : (parse_fields E o).2 = none)
    (hl : MatchString o._sc o._gps <+: l)
    (ht : find_tag l (MatchString o._sc o._gps).length tags = .ok (some t))
    (hlast : ∀ l1 ∈ post, MatchString o._sc o._gps <+: l1 →
      find_tag l1 (MatchString o._sc o._gps).length tags ≠ .ok (some t))
    (hws : ∀ c ∈ ws, isspace c = true)
    (hv : value_text l = .ok (ws ++ dec v))
    (h1 : -32768 ≤ v) (h2 : v ≤ 32767) :
    (t = .Week → ∃ s1, call E .get_gps_week (n + 5) ⟨o, log⟩ = some (.int v, s1)) ∧
    (t = .Rollover → ∃ s1, call E .get_gps_rollover (n + 5) ⟨o, log⟩ = some (.int v, s1)) := by
  have hf := (last_line_field E o pre post l t (ws ++ dec v) hdp hok hl ht hv hlast).2
  have hst : stoi (ws ++ dec v) = .ok v := by
    rw [stoi_space ws _ hws]
    exact stoi_dec v (by unfold INT_MIN; omega) (by unfold INT_MAX; omega)
  have h16 := to_int16_of_range v h1 h2
  constructor
  · intro htw
    subst htw
    simp only [Tag.field, assign, hst, h16, FieldValue.int.injEq] at hf
    refine ⟨⟨(parse_fields E o).1, log ++ [Event.scan] ++ handler (parse_fields E o).2 ++
      [Event.conversion] ++ [Event.debug]⟩, ?_⟩
    rw [call_eq]
    simp [hnp, Accessor.read, hf]
  · intro htw
    subst htw
    simp only [Tag.field, assign, hst, h16, FieldValue.int.injEq] at hf
    refine ⟨⟨(parse_fields E o).1, log ++ [Event.scan] ++ handler (parse_fields E o).2 ++
      [Event.conversion] ++ [Event.debug]⟩, ?_⟩
    rw [call_eq]
    simp [hnp, Accessor.read, hf]

/-- C14 (witness): the line `Week = -32768`; `get_gps_week()` returns -32768. -/
theorem week_rollover_verbatim_in_range_witness :
    ∃ s1, call reference_env Accessor.get_gps_week 5
      ⟨GPSSimDataPoint.from_dp zero_mem 0 0 ["SC[0].AC.GPS[0].Week = -32768".toList], []⟩
      = some (Value.int (-32768), s1) :=
  (week_rollover_verbatim_in_range reference_env
    (GPSSimDataPoint.from_dp zero_mem 0 0 ["SC[0].AC.GPS[0].Week = -32768".toList])
    [] [] "SC[0].AC.GPS[0].Week = -32768".toList [' '] Tag.Week (-32768) [] 0
    rfl rfl (by decide!) (by decide) (by decide) (by simp) (by decide) (by decide)
    (by decide) (by decide)).1 rfl

/-! ## A line that throws -/

theorem assign_throw (E : Env) (t : Tag) (text : Str) (o : GPSSimDataPoint) (e : Exn)
    (hvec : t.is_vector = true → ∀ (text : Str) (dv : List ℚ) (e1 : Exn),
      (E.parse_double_vector text dv).2 = some e1 → (E.parse_double_vector text dv).1 = dv)
    (h : (assign E t text o).2 = some e) : (assign E t text o).1 = o := by
  cases t <;> simp only [assign] at h ⊢ <;> first
    | (split at h
       · rfl
       · simp at h)
    | (rw [hvec rfl _ _ e h])

/-- C15: a failed field keeps its previous value. For a line under the prefix with one of the
six scalar tags whose value text fails the coercion (`stoi` for `Rollover` and `Week`, `stod`
for `Sec`, `Lng`, `Lat` and `Alt`), the loop body throws the exception of the coercion and
leaves every member of the object, the member of the tag among them, as it was before the
line. -/
theorem failed_field_keeps_value (E : Env) (MS line text : Str) (o : GPSSimDataPoint)
    (t : Tag) (e : Exn)
    (hp : MS <+: line)
    (ht : find_tag line MS.length tags = .ok (some t))
    (hv : value_text line = .ok text)
    (hs : t.is_vector = false)
    (hint : t = .Rollover ∨ t = .Week → stoi text = .error e)
    (hdbl : t = .Sec ∨ t = .Lng ∨ t = .Lat ∨ t = .Alt → stod E text = .error e) :
    loop_body E MS line o = (o, some e) ∧
    t.field (loop_body E MS line o).1 = t.field o := by
  have hb : loop_body E MS line o = (o, some e) := by
    rw [loop_body_tag E MS line o t text hp ht hv]
    cases t with
    | Rollover => simp [assign, hint (Or.inl rfl)]
    | Week => simp [assign, hint (Or.inr rfl)]
    | Sec => simp [assign, hdbl (Or.inl rfl)]
    | Lng => simp [assign, hdbl (Or.inr (Or.inl rfl))]
    | Lat => simp [assign, hdbl (Or.inr (Or.inr (Or.inl rfl)))]
    | Alt => simp [assign, hdbl (Or.inr (Or.inr (Or.inr rfl)))]
    | PosN => exact absurd hs (by decide)
    | VelN => exact absurd hs (by decide)
    | PosW => exact absurd hs (by decide)
    | VelW => exact absurd hs (by decide)
  exact ⟨hb, by rw [hb]⟩

/-- C15 (witness): the line `Sec = abc` on an object whose seconds are 99 and 1/2. -/
theorem failed_field_keeps_value_witness :
    loop_body reference_env (MatchString 0 0) "SC[0].AC.GPS[0].Sec = abc".toList used_mem
      = (used_mem, some (Exn.invalid_argument "stod")) ∧
    Tag.Sec.field (loop_body reference_env (MatchString 0 0)
      "SC[0].AC.GPS[0].Sec = abc".toList used_mem).1 = FieldValue.sec 99 (1 / 2) := by
  obtain ⟨h1, h2⟩ := failed_field_keeps_value reference_env (MatchString 0 0)
    "SC[0].AC.GPS[0].Sec = abc".toList " abc".toList used_mem Tag.Sec
    (Exn.invalid_argument "stod") (by decide) (by decide) (by decide) (by decide)
    (fun h => by simp at h) (fun _ => by decide)
  exact ⟨h1, h2.trans rfl⟩

/-- C16 (the code at the failing input): the object is built in a storage whose GPS time members
hold 7, -3, 99 and 1/2, from a source whose only line is for receiver 1; parsed for receiver 0,
no line matches, the four vectors are `[0, 0, 0]`, and the GPS time members are still 7, -3, 99
and 1/2, not 0: `_abs_time` is the time conversion of these values. -/
theorem no_match_keeps_storage_contents :
    (∀ l ∈ ["SC[0].AC.GPS[1].Week = 5".toList], ¬ MatchString 0 0 <+: l) ∧
    ∃ s1, do_parsing reference_env 3
        ⟨GPSSimDataPoint.from_dp used_mem 0 0 ["SC[0].AC.GPS[1].Week = 5".toList], []⟩
        = some s1 ∧
      s1.obj._gps_rollover = 7 ∧ s1.obj._gps_week = -3 ∧ s1.obj._gps_sec_week = 99 ∧
      s1.obj._gps_frac_sec = 1 / 2 ∧
      s1.obj._ECEF = [0, 0, 0] ∧ s1.obj._ECEF_vel = [0, 0, 0] ∧ s1.obj._ECI = [0, 0, 0] ∧
      s1.obj._ECI_vel = [0, 0, 0] ∧
      s1.obj._abs_time =
        reference_env.JDToAbsTime (reference_env.GpsTimeToJD 7 (-3) ((99 : ℚ) + 1 / 2)) ∧
      s1.log = [Event.scan, Event.conversion, Event.debug] := by
  refine ⟨by decide, _, do_parsing_eq reference_env 0 _, ?_⟩
  decide!


/-! ## The conversion of the angles -/

/-- The constant `M_PI` is within `1.3e-16` of π. -/
theorem M_PI_near_pi : |(M_PI : ℝ) - Real.pi| < 13 / 10 ^ 17 := by
  have h1 := Real.pi_gt_d20
  have h2 := Real.pi_lt_d20
  rw [abs_lt]
  simp only [M_PI]
  push_cast
  constructor <;> norm_num at h1 h2 ⊢ <;> linarith

/-- C17: the angle conversion. When no exception leaves the scan and the last `Lng`
(respectively `Lat`) line under the prefix has a value read as `r`, then after `do_parsing` the
member `_gps_lng` (respectively `_gps_lat`) is `r * 180 / M_PI`, where `M_PI` is within
`1.3e-16` of π; a `Lng` line leaves `_gps_lat` as it was and a `Lat` line leaves `_gps_lng` as
it was. The arithmetic of the model is exact. -/
theorem angle_conversion (E : Env) (o : GPSSimDataPoint) (pre post : List Str) (l text : Str)
    (t : Tag) (r : ℚ) (log : List Event) (n : Nat)
    (hdp : o._dp = pre ++ l :: post)
    (hok : (parse_fields E o).2 = none)
    (hl : MatchString o._sc o._gps <+: l)
    (ht : find_tag l (MatchString o._sc o._gps).length tags = .ok (some t))
    (hlast : ∀ l1 ∈ post, MatchString o._sc o._gps <+: l1 →
      find_tag l1 (MatchString o._sc o._gps).length tags ≠ .ok (some t))
    (hv : value_text l = .ok text) (hs : stod E text = .ok r)
    (htag : t = .Lng ∨ t = .Lat) :
    ∃ s1, do_parsing E (n + 3) ⟨o, log⟩ = some s1 ∧
      (t = .Lng → s1.obj._gps_lng = r * 180 / M_PI) ∧
      (t = .Lat → s1.obj._gps_lat = r * 180 / M_PI) ∧
      (t = .Lng → ∀ o1, (loop_body E (MatchString o._sc o._gps) l o1).1._gps_lat = o1._gps_lat) ∧
      (t = .Lat → ∀ o1, (loop_body E (MatchString o._sc o._gps) l o1).1._gps_lng = o1._gps_lng) ∧
      |(M_PI : ℝ) - Real.pi| < 13 / 10 ^ 17 := by
  have hf := (last_line_field E o pre post l t text hdp hok hl ht hv hlast).2
  refine ⟨_, do_parsing_eq E n _, ?_, ?_, ?_, ?_, M_PI_near_pi⟩
  · intro h
    subst h
    simpa [Tag.field, assign, hs] using hf
  · intro h
    subst h
    simpa [Tag.field, assign, hs] using hf
  · intro h o1
    subst h
    have := loop_body_other E (MatchString o._sc o._gps) l o1 Tag.Lat
      (fun _ h1 => by rw [ht] at h1; simp at h1)
    simpa [Tag.field] using this
  · intro h o1
    subst h
    have := loop_body_other E (MatchString o._sc o._gps) l o1 Tag.Lng
      (fun _ h1 => by rw [ht] at h1; simp at h1)
    simpa [Tag.field] using this

/-- C17 (witness): the line `Lng = 1.5707963267948966` gives a longitude within `1e-6` of 90,
and so is every number whose relative distance to it is at most four unit roundoffs (three
roundings of binary64 arithmetic stay within that). -/
theorem angle_conversion_witness :
    ∃ s1, do_parsing reference_env 3
        ⟨GPSSimDataPoint.from_dp zero_mem 0 0
          ["SC[0].AC.GPS[0].Lng = 1.5707963267948966".toList], []⟩ = some s1 ∧
      90 - 1 / 1000000 < s1.obj._gps_lng ∧ s1.obj._gps_lng < 90 + 1 / 1000000 ∧
      ∀ x : ℚ, |x - s1.obj._gps_lng| ≤ 4 * unit_roundoff * s1.obj._gps_lng →
        90 - 1 / 1000000 < x ∧ x < 90 + 1 / 1000000 := by
  obtain ⟨s1, h1, h2, _⟩ := angle_conversion reference_env
    (GPSSimDataPoint.from_dp zero_mem 0 0 ["SC[0].AC.GPS[0].Lng = 1.5707963267948966".toList])
    [] [] "SC[0].AC.GPS[0].Lng = 1.5707963267948966".toList " 1.5707963267948966".toList
    Tag.Lng (7853981633974483 / 5000000000000000) [] 0
    rfl (by decide!) (by decide) (by decide) (by simp) (by decide) (by decide!) (Or.inl rfl)
  have h3 := h2 rfl
  refine ⟨s1, h1, ?_, ?_, ?_⟩
  · rw [h3]; norm_num [M_PI]
  · rw [h3]; norm_num [M_PI]
  · intro x hx
    rw [h3] at hx
    rw [abs_le] at hx
    norm_num [M_PI, unit_roundoff] at hx
    constructor <;> linarith [hx.1, hx.2]

/-! ## The scan stops at the first exception -/

theorem set_dp_self (o : GPSSimDataPoint) : { o with _dp := o._dp } = o := by
  cases o
  rfl

/-- C18: the scan stops at the first coercion failure. When the lines before line `bad` throw
nothing and `bad`, a line under the prefix with a recognized tag, makes the loop body throw,
then `do_parsing` on the whole source and `do_parsing` on the lines before `bad` give the same
members: the two objects differ in the stored source only, so the lines after `bad` have no
effect, and `_abs_time` is the time conversion of those members; the log of the whole source
has the exception in addition. For a vector tag this needs that `parse_double_vector` leaves the
vector as it was when it throws. -/
theorem scan_stops_at_first_failure (E : Env) (o o1 : GPSSimDataPoint) (pre post : List Str)
    (bad : Str) (t : Tag) (e : Exn) (log : List Event) (n : Nat)
    (hdp : o._dp = pre ++ bad :: post)
    (hpre : scan E (MatchString o._sc o._gps) pre { o with _not_parsed := false } = (o1, none))
    (hp : MatchString o._sc o._gps <+: bad)
    (ht : find_tag bad (MatchString o._sc o._gps).length tags = .ok (some t))
    (hbad : (loop_body E (MatchString o._sc o._gps) bad o1).2 = some e)
    (hvec : t.is_vector = true → ∀ (text : Str) (dv : List ℚ) (e1 : Exn),
      (E.parse_double_vector text dv).2 = some e1 → (E.parse_double_vector text dv).1 = dv) :
    ∃ s1 s2, do_parsing E (n + 3) ⟨o, log⟩ = some s1 ∧
      do_parsing E (n + 3) ⟨{ o with _dp := pre }, log⟩ = some s2 ∧
      s1.obj = { s2.obj with _dp := o._dp } ∧
      s1.obj._abs_time = E.JDToAbsTime (E.GpsTimeToJD s2.obj._gps_rollover s2.obj._gps_week
        ((s2.obj._gps_sec_week : ℚ) + s2.obj._gps_frac_sec)) ∧
      s1.log = log ++ [Event.scan, Event.error e, Event.conversion, Event.debug] ∧
      s2.log = log ++ [Event.scan, Event.conversion, Event.debug] := by
  have hb : loop_body E (MatchString o._sc o._gps) bad o1 = (o1, some e) := by
    obtain ⟨text, hv⟩ := value_text_ok bad
    have hlb := loop_body_tag E _ bad o1 t text hp ht hv
    rw [hlb] at hbad ⊢
    exact Prod.ext (assign_throw E t text o1 e hvec hbad) hbad
  have key : ∀ l, l = pre ++ bad :: post →
      scan E (MatchString o._sc o._gps) l { o with _not_parsed := false } = (o1, some e) := by
    intro l hl
    rw [hl, scan_append, hpre]
    simp [scan, hb]
  have hdp1 : o1._dp = o._dp := by
    have := (scan_frame E (MatchString o._sc o._gps) pre { o with _not_parsed := false }).2.1
    rw [hpre] at this
    exact this
  have hP1 : parse_fields E o =
      ({ o1 with _abs_time := E.JDToAbsTime (E.GpsTimeToJD o1._gps_rollover o1._gps_week
        ((o1._gps_sec_week : ℚ) + o1._gps_frac_sec)) }, some e) := by
    simp only [parse_fields, key _ hdp]
  have hP2 : parse_fields E { o with _dp := pre } =
      ({ o1 with _dp := pre, _abs_time := E.JDToAbsTime (E.GpsTimeToJD o1._gps_rollover
        o1._gps_week ((o1._gps_sec_week : ℚ) + o1._gps_frac_sec)) }, none) := by
    have h2 := scan_set_dp E (MatchString o._sc o._gps) pre { o with _not_parsed := false } pre
    rw [hpre] at h2
    simp only [parse_fields]
    rw [show ({ o with _dp := pre, _not_parsed := false } : GPSSimDataPoint) =
      { ({ o with _not_parsed := false } : GPSSimDataPoint) with _dp := pre } from rfl, h2]
  refine ⟨_, _, do_parsing_eq E n _, do_parsing_eq E n _, ?_, ?_, ?_, ?_⟩
  · simp only [hP1, hP2]
    rw [← hdp1]
  · simp only [hP1, hP2]
  · simp [hP1, handler]
  · simp [hP2, handler]

theorem parse_double_vector_spec_throw (strtod : Str → Except Exn ℚ) (text : Str)
    (dv : List ℚ) (e : Exn) (h : (parse_double_vector_spec strtod text dv).2 = some e) :
    (parse_double_vector_spec strtod text dv).1 = dv := by
  unfold parse_double_vector_spec at h ⊢
  simp only at h ⊢
  split
  · split
    · rfl
    · simp_all
  · rfl

/-- C18 (witness): the source `Week = 100`, `Sec = abc`, `Rollover = 2`; the result is the one
of the source `Week = 100`, with `_gps_week = 100` and `_gps_rollover` still 0. -/
theorem scan_stops_at_first_failure_witness :
    ∃ s1 s2,
      do_parsing reference_env 3 ⟨GPSSimDataPoint.from_dp zero_mem 0 0
        ["SC[0].AC.GPS[0].Week = 100".toList, "SC[0].AC.GPS[0].Sec = abc".toList,
         "SC[0].AC.GPS[0].Rollover = 2".toList], []⟩ = some s1 ∧
      do_parsing reference_env 3 ⟨{ GPSSimDataPoint.from_dp zero_mem 0 0
        ["SC[0].AC.GPS[0].Week = 100".toList, "SC[0].AC.GPS[0].Sec = abc".toList,
         "SC[0].AC.GPS[0].Rollover = 2".toList] with
        _dp := ["SC[0].AC.GPS[0].Week = 100".toList] }, []⟩ = some s2 ∧
      s1.obj = { s2.obj with _dp :=
        ["SC[0].AC.GPS[0].Week = 100".toList, "SC[0].AC.GPS[0].Sec = abc".toList,
         "SC[0].AC.GPS[0].Rollover = 2".toList] } ∧
      s1.log = [Event.scan, Event.error (Exn.invalid_argument "stod"), Event.conversion,
        Event.debug] := by
  obtain ⟨s1, s2, h1, h2, h3, _, h5, _⟩ := scan_stops_at_first_failure reference_env
    (GPSSimDataPoint.from_dp zero_mem 0 0
      ["SC[0].AC.GPS[0].Week = 100".toList, "SC[0].AC.GPS[0].Sec = abc".toList,
       "SC[0].AC.GPS[0].Rollover = 2".toList])
    { GPSSimDataPoint.from_dp zero_mem 0 0
      ["SC[0].AC.GPS[0].Week = 100".toList, "SC[0].AC.GPS[0].Sec = abc".toList,
       "SC[0].AC.GPS[0].Rollover = 2".toList] with _not_parsed := false, _gps_week := 100 }
    ["SC[0].AC.GPS[0].Week = 100".toList] ["SC[0].AC.GPS[0].Rollover = 2".toList]
    "SC[0].AC.GPS[0].Sec = abc".toList Tag.Sec (Exn.invalid_argument "stod") [] 0
    rfl (by decide!) (by decide) (by decide) (by decide)
    (fun _ text dv e h => parse_double_vector_spec_throw strtod_decimal text dv e h)
  exact ⟨s1, s2, h1, h2, h3, h5⟩

/-! ## A scalar line without an equals sign -/

theorem value_text_no_equals (line : Str) (h : '=' ∉ line) (hlen : line.length < SIZE_MOD) :
    find_first_of line '=' = npos ∧ size_add npos 1 = 0 ∧
    size_sub (size_sub line.length npos) 1 = line.length ∧ value_text line = .ok line := by
  have hf : find_first_of line '=' = npos := by simp [find_first_of, h]
  have ha : size_add npos 1 = 0 := by decide
  have hs : size_sub (size_sub line.length npos) 1 = line.length := by
    unfold size_sub npos
    unfold SIZE_MOD at hlen ⊢
    omega
  refine ⟨hf, ha, hs, ?_⟩
  rw [value_text, hf, ha, hs, substr, if_neg (by simp)]
  simp

theorem MatchString_head (sc gps : Int) :
    ∃ r, MatchString sc gps = 'S' :: 'C' :: '[' :: r := ⟨_, rfl⟩

theorem stoi_S (r : Str) : stoi ('S' :: r) = .error (Exn.invalid_argument "stoi") := by
  have h1 : isspace 'S' = false := by decide
  have h2 : isdigit 'S' = false := by decide
  simp [stoi, take_sign, h1, h2]

/-- C19: a scalar-tag line with no `=`. For a line made of the prefix, the literal of one of the
six scalar tags and a rest without `=`, `find_first_of` returns `npos`, `npos + 1` wraps to 0 and
the length wraps to the size of the line, so the value text is the whole line; it begins with
`S`, the coercion fails (for the `stod` tags, given that `strtod` converts no text that begins
with `S`),
and the loop body throws and leaves the object as it was. -/
theorem scalar_line_without_equals (E : Env) (sc gps : Int) (t : Tag) (rest : Str)
    (o : GPSSimDataPoint)
    (hs : t.is_vector = false) (hne : '=' ∉ rest)
    (hsize : (MatchString sc gps ++ t.text ++ rest).length < SIZE_MOD)
    (hS : t = .Sec ∨ t = .Lng ∨ t = .Lat ∨ t = .Alt →
      ∀ r : Str, ∃ e, E.strtod ('S' :: r) = .error e) :
    find_first_of (MatchString sc gps ++ t.text ++ rest) '=' = npos ∧
    size_add npos 1 = 0 ∧
    size_sub (size_sub (MatchString sc gps ++ t.text ++ rest).length npos) 1 =
      (MatchString sc gps ++ t.text ++ rest).length ∧
    value_text (MatchString sc gps ++ t.text ++ rest) =
      .ok (MatchString sc gps ++ t.text ++ rest) ∧
    ∃ e, loop_body E (MatchString sc gps) (MatchString sc gps ++ t.text ++ rest) o
      = (o, some e) := by
  have hm : '=' ∉ MatchString sc gps ++ t.text ++ rest := by
    simp [eq_not_mem_MatchString sc gps, eq_not_mem_tag t, hne]
  obtain ⟨a1, a2, a3, a4⟩ := value_text_no_equals _ hm hsize
  refine ⟨a1, a2, a3, a4, ?_⟩
  have hp : MatchString sc gps <+: MatchString sc gps ++ t.text ++ rest := by
    rw [List.append_assoc]
    exact List.prefix_append _ _
  rw [loop_body_tag E _ _ o t _ hp (find_tag_text _ rest t) a4]
  obtain ⟨r, hr⟩ := MatchString_head sc gps
  obtain ⟨x, hx⟩ : ∃ x, MatchString sc gps ++ t.text ++ rest = 'S' :: x := by
    rw [hr]
    exact ⟨_, rfl⟩
  rw [hx]
  have hsp : isspace 'S' = false := by decide
  have hstod : stod E ('S' :: x) = E.strtod ('S' :: x) := by
    simp [stod, hsp]
  cases t with
  | Rollover => exact ⟨Exn.invalid_argument "stoi", by simp only [assign, stoi_S]⟩
  | Week => exact ⟨Exn.invalid_argument "stoi", by simp only [assign, stoi_S]⟩
  | Sec =>
    obtain ⟨e, he⟩ := hS (Or.inl rfl) x
    exact ⟨e, by simp only [assign, hstod, he]⟩
  | Lng =>
    obtain ⟨e, he⟩ := hS (Or.inr (Or.inl rfl)) x
    exact ⟨e, by simp only [assign, hstod, he]⟩
  | Lat =>
    obtain ⟨e, he⟩ := hS (Or.inr (Or.inr (Or.inl rfl))) x
    exact ⟨e, by simp only [assign, hstod, he]⟩
  | Alt =>
    obtain ⟨e, he⟩ := hS (Or.inr (Or.inr (Or.inr rfl))) x
    exact ⟨e, by simp only [assign, hstod, he]⟩
  | PosN => exact absurd hs (by decide)
  | VelN => exact absurd hs (by decide)
  | PosW => exact absurd hs (by decide)
  | VelW => exact absurd hs (by decide)

theorem strtod_decimal_S (r : Str) :
    strtod_decimal ('S' :: r) = .error (Exn.invalid_argument "stod") := by
  have h2 : isdigit 'S' = false := by decide
  simp [strtod_decimal, read_decimal, take_sign, h2]

/-- C19 (witness): the line `Sec 5` under receiver 0 has no `=`; the value text is the whole
line and the object is left as it was. -/
theorem scalar_line_without_equals_witness :
    value_text "SC[0].AC.GPS[0].Sec 5".toList = .ok "SC[0].AC.GPS[0].Sec 5".toList ∧
    ∃ e, loop_body reference_env (MatchString 0 0) "SC[0].AC.GPS[0].Sec 5".toList used_mem
      = (used_mem, some e) := by
  obtain ⟨_, _, _, h4, h5⟩ := scalar_line_without_equals reference_env 0 0 Tag.Sec "5".toList
    used_mem rfl (by decide) (by decide) (fun _ r => ⟨_, strtod_decimal_S r⟩)
  exact ⟨h4, h5⟩

/-! ## Termination of a call on an unparsed object -/

theorem to_string_parsed (E : Env) (m : Nat) (s : State) (h : s.obj._not_parsed = false) :
    to_string E (m + 2) s = some (streamed s.obj, s) := by
  simp [to_string, parse_data_point, h]

/-- C20: parsing terminates without re-entering itself. The scan starts from the object with
the flag cleared and leaves it cleared; `to_string` on an object whose flag is cleared returns
at once, with the state as it is, so the `to_string()` call that ends `do_parsing` starts no
second parse; and on an unparsed object every accessor call returns, for every call depth of
five or more the same value and state, the state `do_parsing` makes, whose log has gained
exactly one scan. -/
theorem parsing_does_not_reenter (E : Env) (a : Accessor) (s : State) (n : Nat)
    (hnp : s.obj._not_parsed = true) :
    (scan E (MatchString s.obj._sc s.obj._gps) s.obj._dp
      { s.obj with _not_parsed := false }).1._not_parsed = false ∧
    (∀ (s2 : State) (m : Nat), s2.obj._not_parsed = false →
      to_string E (m + 2) s2 = some (streamed s2.obj, s2)) ∧
    ∃ v s1 new, (∀ m, call E a (m + 5) s = some (v, s1)) ∧
      do_parsing E (n + 3) s = some s1 ∧
      s1.obj._not_parsed = false ∧
      s1.log = s.log ++ new ∧ new.count Event.scan = 1 := by
  refine ⟨(scan_frame E _ _ _).1, fun s2 m h => to_string_parsed E m s2 h, ?_⟩
  refine ⟨a.read (parse_fields E s.obj).1,
    ⟨(parse_fields E s.obj).1, s.log ++ [Event.scan] ++ handler (parse_fields E s.obj).2 ++
      [Event.conversion] ++ [Event.debug]⟩,
    [Event.scan] ++ handler (parse_fields E s.obj).2 ++ [Event.conversion] ++ [Event.debug],
    ?_, do_parsing_eq E n s, parse_fields_not_parsed E s.obj, by simp, ?_⟩
  · intro m
    rw [call_eq]
    simp [hnp]
  · simp [List.count_append, count_scan_handler, List.count_cons]

/-- C20 (witness): `get_gps_week()` on the unparsed object of the end-to-end source returns 100
after one scan. -/
theorem parsing_does_not_reenter_witness :
    ∃ s1, (∀ m, call reference_env Accessor.get_gps_week (m + 5)
        ⟨GPSSimDataPoint.from_dp zero_mem 0 0 end_to_end_source, []⟩
        = some (Value.int 100, s1)) ∧
      s1.log.count Event.scan = 1 := by
  obtain ⟨_, _, v, s1, new, h1, h2, _, h4, h5⟩ := parsing_does_not_reenter reference_env
    Accessor.get_gps_week ⟨GPSSimDataPoint.from_dp zero_mem 0 0 end_to_end_source, []⟩ 0 rfl
  have hv : v = Value.int 100 := by
    have h0 := h1 0
    rw [call_eq] at h0
    simp only [GPSSimDataPoint.from_dp, if_true, Option.some.injEq, Prod.mk.injEq] at h0
    rw [← h0.1]
    decide!
  subst hv
  refine ⟨s1, h1, ?_⟩
  rw [h4]
  simpa using h5


/-! ## Repeated access -/

/-- C7 (counterexample): the object built by the constructor from explicit values with empty
vectors is a state of the class, and on it `get_ECEF_x()`, called twice in a row, reads past the
end of `_ECEF` both times: neither call returns a component. -/
theorem repeated_access_past_the_end :
    ¬ len3 (GPSSimDataPoint.explicit zero_mem 0 0 0 0 [] [] [] []) ∧
    ∃ s1, call reference_env Accessor.get_ECEF_x 5
        ⟨GPSSimDataPoint.explicit zero_mem 0 0 0 0 [] [] [] [], []⟩
        = some (Value.elem none, s1) ∧
      call reference_env Accessor.get_ECEF_x 5 s1 = some (Value.elem none, s1) := by
  refine ⟨by decide, ⟨GPSSimDataPoint.explicit zero_mem 0 0 0 0 [] [] [] [], []⟩, ?_, ?_⟩ <;>
    exact call_parsed reference_env Accessor.get_ECEF_x 0 _ rfl

/-- C7 (amended): idempotent access on an object whose four vectors have three components.
For every such state and every accessor, the call returns a value `v`, read within the bounds
of the vectors, and a state `s1` whose vectors have three components; a second call on `s1`
returns the same `v` and leaves `s1` as it is, every member and the flag included; when the
object is already parsed, `s1` is the state before the first call. For an unparsed object this
needs that `parse_double_vector` returns three-component vectors. -/
theorem idempotent_access (E : Env) (a : Accessor) (s : State) (n : Nat)
    (hlen : len3 s.obj)
    (hE : s.obj._not_parsed = true → ∀ (text : Str) (dv : List ℚ), dv.length = 3 →
      (E.parse_double_vector text dv).1.length = 3) :
    ∃ v s1, call E a (n + 5) s = some (v, s1) ∧ call E a (n + 5) s1 = some (v, s1) ∧
      (s.obj._not_parsed = true ∨ s1 = s) ∧
      len3 s1.obj ∧ v ≠ Value.elem none ∧ ∀ vals, v = Value.text vals → none ∉ vals := by
  cases h : s.obj._not_parsed with
  | false =>
    refine ⟨a.read s.obj, s, call_parsed E a n s h, call_parsed E a n s h, Or.inr rfl, hlen,
      read_in_bounds a s.obj hlen⟩
  | true =>
    have hl := parse_fields_len3 E s.obj (hE h) hlen
    refine ⟨a.read (parse_fields E s.obj).1,
      ⟨(parse_fields E s.obj).1, s.log ++ [Event.scan] ++ handler (parse_fields E s.obj).2 ++
        [Event.conversion] ++ [Event.debug]⟩, ?_, ?_, Or.inl rfl, hl,
      read_in_bounds a _ hl⟩
    · rw [call_eq]
      simp [h]
    · exact call_parsed E a n _ (parse_fields_not_parsed E s.obj)

/-- C7 (witness): `get_ECEF_x()` twice on the unparsed object of the end-to-end source; both
calls return 1100 and the second leaves the state as it is. -/
theorem idempotent_access_witness :
    ∃ s1, call reference_env Accessor.get_ECEF_x 5
        ⟨GPSSimDataPoint.from_dp zero_mem 0 0 end_to_end_source, []⟩
        = some (Value.elem (some 1100), s1) ∧
      call reference_env Accessor.get_ECEF_x 5 s1 = some (Value.elem (some 1100), s1) := by
  obtain ⟨v, s1, h1, h2, _⟩ := idempotent_access reference_env Accessor.get_ECEF_x
    ⟨GPSSimDataPoint.from_dp zero_mem 0 0 end_to_end_source, []⟩ 0 (by decide)
    (fun _ text dv h => parse_double_vector_spec_length strtod_decimal text dv h)
  have hv : v = Value.elem (some 1100) := by
    have h0 := h1
    rw [call_eq] at h0
    simp only [GPSSimDataPoint.from_dp, if_true, Option.some.injEq, Prod.mk.injEq] at h0
    rw [← h0.1]
    decide!
  subst hv
  exact ⟨s1, h1, h2⟩

end Nos3
